import Mathlib

/-!
Verification of the tootpic Fediverse post-ingestion pipeline.

This file gives a shallow embedding, in Lean, of the pipeline's core:
 * the URL matcher `parseFediverseUrl` and its platform pattern registry
   `SUPPORTED_PLATFORMS` (src/types/activitypub.ts, activitypubParser.ts),
 * the format normalizers `convertMastodonToUniversal` and
   `convertActivityPubToUniversal`,
 * the LRU result cache (src/utils/apiCache.ts),
 * the orchestrator `FediverseClient.fetchPost` together with the
   Mastodon/Pleroma fetchers and the generic ActivityPub object resolver.

JavaScript regular expressions are embedded as an explicit AST (`RE`) and
executed by a backtracking matcher with capture groups mirroring the
semantics of `String.prototype.match` for the anchored, backreference-free
patterns the registry uses.  Network effects are modelled by an explicit
oracle (`Net`) mapping request URLs to responses; `Date.now()` is an
explicit `now` argument.  JavaScript truthiness on strings (where `""` is
falsy) is modelled by `strTruthy`/`jsOrS`.
-/

set_option autoImplicit false

namespace Tootpic

/-! ## Basic string helpers (JS primitives used by the pipeline) -/

/-- ASCII lower-casing of a character, as used by `String.prototype.toLowerCase`
on the ASCII URLs this pipeline handles. -/
def lowerChar (c : Char) : Char :=
  if 'A' ≤ c ∧ c ≤ 'Z' then Char.ofNat (c.toNat + 32) else c

def lowerChars (l : List Char) : List Char := l.map lowerChar

def lowerStr (s : String) : String := (lowerChars s.data).asString

/-- `String.prototype.trim`: strip whitespace from both ends. -/
def trimChars (l : List Char) : List Char :=
  ((l.dropWhile Char.isWhitespace).reverse.dropWhile Char.isWhitespace).reverse

/-- `String.prototype.includes`: substring containment. -/
def containsSub : List Char → List Char → Bool
  | needle, [] => needle.isEmpty
  | needle, c :: t => needle.isPrefixOf (c :: t) || containsSub needle t

def strContains (hay needle : String) : Bool :=
  containsSub needle.data hay.data

/-- JS truthiness of an optional string: `undefined` and `""` are falsy. -/
def strTruthy : Option String → Bool
  | none => false
  | some s => s ≠ ""

/-- JS `a || b` on optional strings (empty string is falsy). -/
def jsOrS (a b : Option String) : Option String :=
  if strTruthy a then a else b

/-- JS `s.split('/').pop()`: the substring after the last `/`. -/
def lastSeg (s : String) : String :=
  (((s.data.reverse.takeWhile (· ≠ '/')).reverse)).asString

/-- `new URL(s).hostname` for `http(s)` URLs: the host part between the
scheme and the first `/`, `:`, `?` or `#`, lower-cased.  `none` models the
`TypeError` the `URL` constructor throws on input it cannot parse.  (The
pipeline only ever constructs `URL`s from `http`/`https` strings; other
schemes are modelled as parse failures.) -/
def hostnameOf (s : String) : Option String :=
  let l := s.data
  let rest : Option (List Char) :=
    if "https://".data.isPrefixOf l then some (l.drop 8)
    else if "http://".data.isPrefixOf l then some (l.drop 7)
    else none
  match rest with
  | none => none
  | some r =>
    let host := r.takeWhile (fun c => c ≠ '/' && c ≠ ':' && c ≠ '?' && c ≠ '#')
    if host.isEmpty then none else some (lowerChars host).asString

def strStarts (s p : String) : Bool := p.data.isPrefixOf s.data

def strEnds (s p : String) : Bool := p.data.reverse.isPrefixOf s.data.reverse

/-! ## A small regex engine

The URL registry consists of anchored JavaScript regexes built from
literals, character classes, `+`/`*` over classes, alternation, the greedy
option `(?:...)?` and numbered capture groups.  `RE` is the corresponding
AST; `matchRE` is a backtracking matcher in continuation style that
realises the greedy leftmost semantics of JS `String.prototype.match`. -/

/-- Regex AST.  `plusCls`/`starCls` are greedy `+`/`*` over a character
class; `grp` is a numbered capture group. -/
inductive RE where
  | lit : List Char → RE
  | cls : (Char → Bool) → RE
  | plusCls : (Char → Bool) → RE
  | starCls : (Char → Bool) → RE
  | seq : RE → RE → RE
  | alt : RE → RE → RE
  | opt : RE → RE
  | grp : Nat → RE → RE

/-- Length of the maximal prefix of `l` whose characters satisfy `p`. -/
def maxRun (p : Char → Bool) : List Char → Nat
  | [] => 0
  | c :: cs => if p c then maxRun p cs + 1 else 0

/-- First candidate (in list order) for which `f` succeeds. -/
def firstSome {α : Type} (f : Nat → Option α) : List Nat → Option α
  | [] => none
  | n :: ns =>
    match f n with
    | some r => some r
    | none => firstSome f ns

/-- `m, m-1, ..., lo` (empty when `m < lo`): the candidate lengths a greedy
quantifier tries, longest first. -/
def downFrom (m lo : Nat) : List Nat :=
  (List.range (m + 1 - lo)).map (fun i => m - i)

/-- Captured groups: group index paired with the captured characters.  The
most recent capture is at the head. -/
abbrev Caps := List (Nat × List Char)

/-- Backtracking matcher.  `matchRE r s caps k` tries to match a prefix of
`s` against `r`, extending `caps`, and calls the continuation `k` on the
remaining input; greedy constructs try the longest alternative first. -/
def matchRE : RE → List Char → Caps → (List Char → Caps → Option Caps) → Option Caps
  | .lit l, s, caps, k => if l.isPrefixOf s then k (s.drop l.length) caps else none
  | .cls p, s, caps, k =>
    match s with
    | [] => none
    | c :: rest => if p c then k rest caps else none
  | .plusCls p, s, caps, k =>
    firstSome (fun i => k (s.drop i) caps) (downFrom (maxRun p s) 1)
  | .starCls p, s, caps, k =>
    firstSome (fun i => k (s.drop i) caps) (downFrom (maxRun p s) 0)
  | .seq a b, s, caps, k => matchRE a s caps (fun s2 caps2 => matchRE b s2 caps2 k)
  | .alt a b, s, caps, k =>
    match matchRE a s caps k with
    | some r => some r
    | none => matchRE b s caps k
  | .opt a, s, caps, k =>
    match matchRE a s caps k with
    | some r => some r
    | none => k s caps
  | .grp n a, s, caps, k =>
    matchRE a s caps (fun s2 caps2 => k s2 ((n, s.take (s.length - s2.length)) :: caps2))

/-- Full anchored match (the registry patterns all carry `^...$`). -/
def reFullMatch (r : RE) (s : List Char) : Option Caps :=
  matchRE r s [] (fun rest caps => if rest.isEmpty then some caps else none)

/-- Unanchored search as performed by `String.prototype.match` on a pattern
without `^`: try each start position left to right. -/
def reSearch (r : RE) (s : List Char) : Option Caps :=
  firstSome (fun i => matchRE r (s.drop i) [] (fun _ caps => some caps))
    (List.range (s.length + 1))

/-- Value of capture group `n` (the most recent capture wins, matching the
JS semantics that a group holds its last successful capture). -/
def capGet (caps : Caps) (n : Nat) : List Char :=
  ((caps.find? (fun p => p.1 == n)).map (fun p => p.2)).getD []

def capStr (caps : Caps) (n : Nat) : String := (capGet caps n).asString

/-! Character classes appearing in the registry's patterns. -/

def notSlash (c : Char) : Bool := c ≠ '/'                 -- `[^\/]`
def reDigit (c : Char) : Bool := c.isDigit                -- `\d`
def alnum (c : Char) : Bool :=
  ('a' ≤ c && c ≤ 'z') || ('A' ≤ c && c ≤ 'Z') || c.isDigit   -- `[a-zA-Z0-9]`
def alnumDash (c : Char) : Bool := alnum c || c = '-'     -- `[a-zA-Z0-9-]`
def alnumDashUnd (c : Char) : Bool := alnum c || c = '-' || c = '_'  -- `[a-zA-Z0-9_-]`
def hexDash (c : Char) : Bool :=
  ('a' ≤ c && c ≤ 'f') || c.isDigit || c = '-'            -- `[a-f0-9-]`
def anyChar (c : Char) : Bool := c ≠ '\n'                 -- `.`
def notSlashQ (c : Char) : Bool := c ≠ '/' && c ≠ '?'     -- `[^\/\?]`

def rlit (s : String) : RE := .lit s.data

def reCat : List RE → RE
  | [] => .lit []
  | [r] => r
  | r :: rs => .seq r (reCat rs)

def reAlts : List RE → RE
  | [] => .lit []
  | [r] => r
  | r :: rs => .alt r (reAlts rs)

/-- `^https?:\/\/` -/
def httpPre : RE := reCat [rlit "http", .opt (rlit "s"), rlit "://"]

/-- `(?:\/.*)?$` (the `$` is realised by `reFullMatch` demanding empty rest). -/
def tailOpt : RE := .opt (reCat [rlit "/", .starCls anyChar])

/-- One URL pattern of the registry: its regex plus its number of capture
groups (so `match.length = groups + 1`). -/
structure UrlPattern where
  re : RE
  groups : Nat

/-! ## The platform registry `SUPPORTED_PLATFORMS` (src/types/activitypub.ts)

Each pattern below transcribes one regex literal of the registry, in
source order. -/

/-- `/^https?:\/\/([^\/]+)\/@([^\/]+)\/(\d+)(?:\/.*)?$/` -/
def mastodonPat1 : UrlPattern :=
  ⟨reCat [httpPre, .grp 1 (.plusCls notSlash), rlit "/@", .grp 2 (.plusCls notSlash),
    rlit "/", .grp 3 (.plusCls reDigit), tailOpt], 3⟩

/-- `/^https?:\/\/([^\/]+)\/users\/([^\/]+)\/statuses\/(\d+)(?:\/.*)?$/` -/
def mastodonPat2 : UrlPattern :=
  ⟨reCat [httpPre, .grp 1 (.plusCls notSlash), rlit "/users/", .grp 2 (.plusCls notSlash),
    rlit "/statuses/", .grp 3 (.plusCls reDigit), tailOpt], 3⟩

/-- `/^https?:\/\/([^\/]+)\/@([^\/]+)\/statuses\/([a-zA-Z0-9-]+)(?:\/.*)?$/` -/
def mastodonPat3 : UrlPattern :=
  ⟨reCat [httpPre, .grp 1 (.plusCls notSlash), rlit "/@", .grp 2 (.plusCls notSlash),
    rlit "/statuses/", .grp 3 (.plusCls alnumDash), tailOpt], 3⟩

/-- `/^https?:\/\/([^\/]+)\/users\/([^\/]+)\/statuses\/([a-zA-Z0-9-]+)(?:\/.*)?$/` -/
def mastodonPat4 : UrlPattern :=
  ⟨reCat [httpPre, .grp 1 (.plusCls notSlash), rlit "/users/", .grp 2 (.plusCls notSlash),
    rlit "/statuses/", .grp 3 (.plusCls alnumDash), tailOpt], 3⟩

/-- `/^https?:\/\/([^\/]+)\/p\/([^\/]+)\/(\d+)(?:\/.*)?$/` -/
def pixelfedPat1 : UrlPattern :=
  ⟨reCat [httpPre, .grp 1 (.plusCls notSlash), rlit "/p/", .grp 2 (.plusCls notSlash),
    rlit "/", .grp 3 (.plusCls reDigit), tailOpt], 3⟩

/-- `/^https?:\/\/([^\/]+)\/@([^\/]+)\/p\/(\d+)(?:\/.*)?$/` -/
def pixelfedPat2 : UrlPattern :=
  ⟨reCat [httpPre, .grp 1 (.plusCls notSlash), rlit "/@", .grp 2 (.plusCls notSlash),
    rlit "/p/", .grp 3 (.plusCls reDigit), tailOpt], 3⟩

/-- `/^https?:\/\/([^\/]+)\/i\/web\/post\/(\d+)(?:\/.*)?$/` -/
def pixelfedPat3 : UrlPattern :=
  ⟨reCat [httpPre, .grp 1 (.plusCls notSlash), rlit "/i/web/post/",
    .grp 2 (.plusCls reDigit), tailOpt], 2⟩

/-- `/^https?:\/\/([^\/]+)\/users\/([^\/]+)\/statuses\/(\d+)(?:\/.*)?$/` -/
def pixelfedPat4 : UrlPattern :=
  ⟨reCat [httpPre, .grp 1 (.plusCls notSlash), rlit "/users/", .grp 2 (.plusCls notSlash),
    rlit "/statuses/", .grp 3 (.plusCls reDigit), tailOpt], 3⟩

/-- `/^https?:\/\/([^\/]+)\/videos\/watch\/([a-zA-Z0-9-]+)(?:\/.*)?$/` -/
def peertubePat1 : UrlPattern :=
  ⟨reCat [httpPre, .grp 1 (.plusCls notSlash), rlit "/videos/watch/",
    .grp 2 (.plusCls alnumDash), tailOpt], 2⟩

/-- `/^https?:\/\/([^\/]+)\/w\/([a-zA-Z0-9-]+)(?:\/.*)?$/` -/
def peertubePat2 : UrlPattern :=
  ⟨reCat [httpPre, .grp 1 (.plusCls notSlash), rlit "/w/",
    .grp 2 (.plusCls alnumDash), tailOpt], 2⟩

/-- `/^https?:\/\/([^\/]+)\/videos\/watch\/playlist\/[^\/]+\/video\/([a-zA-Z0-9-]+)(?:\/.*)?$/` -/
def peertubePat3 : UrlPattern :=
  ⟨reCat [httpPre, .grp 1 (.plusCls notSlash), rlit "/videos/watch/playlist/",
    .plusCls notSlash, rlit "/video/", .grp 2 (.plusCls alnumDash), tailOpt], 2⟩

/-- `/^https?:\/\/([^\/]+)\/video\/watch\/([a-zA-Z0-9-]+)(?:\/.*)?$/` -/
def peertubePat4 : UrlPattern :=
  ⟨reCat [httpPre, .grp 1 (.plusCls notSlash), rlit "/video/watch/",
    .grp 2 (.plusCls alnumDash), tailOpt], 2⟩

/-- `/^https?:\/\/([^\/]+)\/objects\/([a-f0-9-]+)(?:\/.*)?$/` -/
def pleromaPat1 : UrlPattern :=
  ⟨reCat [httpPre, .grp 1 (.plusCls notSlash), rlit "/objects/",
    .grp 2 (.plusCls hexDash), tailOpt], 2⟩

/-- `/^https?:\/\/([^\/]+)\/notice\/([a-zA-Z0-9]+)(?:\/.*)?$/` -/
def pleromaPat2 : UrlPattern :=
  ⟨reCat [httpPre, .grp 1 (.plusCls notSlash), rlit "/notice/",
    .grp 2 (.plusCls alnum), tailOpt], 2⟩

/-- `/^https?:\/\/([^\/]+)\/notes\/([a-zA-Z0-9]+)(?:\/.*)?$/` -/
def misskeyPat1 : UrlPattern :=
  ⟨reCat [httpPre, .grp 1 (.plusCls notSlash), rlit "/notes/",
    .grp 2 (.plusCls alnum), tailOpt], 2⟩

/-- `/^https?:\/\/([^\/]+)\/echo\/(\d+)(?:\/.*)?$/` -/
def ech0Pat1 : UrlPattern :=
  ⟨reCat [httpPre, .grp 1 (.plusCls notSlash), rlit "/echo/",
    .grp 2 (.plusCls reDigit), tailOpt], 2⟩

/-- `/^https?:\/\/([^\/]+)\/objects\/(\d+)(?:\/.*)?$/` -/
def ech0Pat2 : UrlPattern :=
  ⟨reCat [httpPre, .grp 1 (.plusCls notSlash), rlit "/objects/",
    .grp 2 (.plusCls reDigit), tailOpt], 2⟩

/-- `/^https?:\/\/([^\/]+)\/posts\/(\d+)(?:\/.*)?$/` -/
def ech0Pat3 : UrlPattern :=
  ⟨reCat [httpPre, .grp 1 (.plusCls notSlash), rlit "/posts/",
    .grp 2 (.plusCls reDigit), tailOpt], 2⟩

/-- `/^https?:\/\/([^\/]+)\/objects\/([a-zA-Z0-9_-]+)(?:\/.*)?$/` -/
def ech0Pat4 : UrlPattern :=
  ⟨reCat [httpPre, .grp 1 (.plusCls notSlash), rlit "/objects/",
    .grp 2 (.plusCls alnumDashUnd), tailOpt], 2⟩

/-- `/^https?:\/\/([^\/]+)\/posts\/([a-zA-Z0-9_-]+)(?:\/.*)?$/` -/
def ech0Pat5 : UrlPattern :=
  ⟨reCat [httpPre, .grp 1 (.plusCls notSlash), rlit "/posts/",
    .grp 2 (.plusCls alnumDashUnd), tailOpt], 2⟩

/-- `/^https?:\/\/([^\/]+)\/notes\/([a-zA-Z0-9_-]+)(?:\/.*)?$/` -/
def ech0Pat6 : UrlPattern :=
  ⟨reCat [httpPre, .grp 1 (.plusCls notSlash), rlit "/notes/",
    .grp 2 (.plusCls alnumDashUnd), tailOpt], 2⟩

/-- A path-shape alternative `pre[^\/]+` in the generic pattern's group 2. -/
def altSeg (pre : String) : RE := reCat [rlit pre, .plusCls notSlash]

/-- The registry entry for the generic platform:
`/^https?:\/\/([^\/]+)\/(@[^\/]+|users\/[^\/]+|objects\/[^\/]+|notice\/[^\/]+|notes\/[^\/]+|statuses\/[^\/]+|p\/[^\/]+\/\d+|videos\/watch\/[^\/]+|posts\/[^\/]+)(?:\/.*)?$/` -/
def genericPat1 : UrlPattern :=
  ⟨reCat [httpPre, .grp 1 (.plusCls notSlash), rlit "/",
    .grp 2 (reAlts [altSeg "@", altSeg "users/", altSeg "objects/", altSeg "notice/",
      altSeg "notes/", altSeg "statuses/",
      reCat [rlit "p/", .plusCls notSlash, rlit "/", .plusCls reDigit],
      altSeg "videos/watch/", altSeg "posts/"]),
    tailOpt], 2⟩

/-- `SUPPORTED_PLATFORMS` in its `Object.entries` iteration (= insertion)
order, reduced to the url-pattern lists the matcher consumes. -/
def platformEntries : List (String × List UrlPattern) :=
  [ ("mastodon", [mastodonPat1, mastodonPat2, mastodonPat3, mastodonPat4])
  , ("pixelfed", [pixelfedPat1, pixelfedPat2, pixelfedPat3, pixelfedPat4])
  , ("peertube", [peertubePat1, peertubePat2, peertubePat3, peertubePat4])
  , ("pleroma", [pleromaPat1, pleromaPat2])
  , ("misskey", [misskeyPat1])
  , ("ech0", [ech0Pat1, ech0Pat2, ech0Pat3, ech0Pat4, ech0Pat5, ech0Pat6])
  , ("generic", [genericPat1]) ]

def platformKeys : List String :=
  ["mastodon", "pixelfed", "peertube", "pleroma", "misskey", "ech0", "generic"]

/-! ## The URL matcher `parseFediverseUrl` (activitypubParser.ts) -/

structure ParsedUrl where
  platform : String
  domain : String
  id : String
  originalUrl : String
  username : Option String
deriving DecidableEq, Repr

/-- First pattern of the list matching `url` (inner loop of the matcher). -/
def scanPatterns (url : List Char) : List UrlPattern → Option (UrlPattern × Caps)
  | [] => none
  | p :: ps =>
    match reFullMatch p.re url with
    | some caps => some (p, caps)
    | none => scanPatterns url ps

/-- First platform (in registry order) with a matching pattern (outer loop). -/
def scanPlatforms (url : List Char) :
    List (String × List UrlPattern) → Option (String × UrlPattern × Caps)
  | [] => none
  | (k, pats) :: rest =>
    match scanPatterns url pats with
    | some (p, caps) => some (k, p, caps)
    | none => scanPlatforms url rest

/-- Extraction applied to a successful platform-loop match:
`domain = match[1]`, `id = match[match.length - 1]` (the last group), and
`username = match.length > 3 ? match[2] : undefined` where
`match.length = groups + 1`. -/
def extractParsed (platformKey : String) (pat : UrlPattern) (caps : Caps)
    (url : List Char) : ParsedUrl :=
  { platform := platformKey
  , domain := capStr caps 1
  , id := capStr caps pat.groups
  , originalUrl := url.asString
  , username := if pat.groups + 1 > 3 then some (capStr caps 2) else none }

/-- The fallback generic ActivityPub pattern (line 46 of the parser):
`/^https?:\/\/([^\/]+)\/(@[^\/]+|users\/[^\/]+|objects\/[^\/]+|notice\/[^\/]+|notes\/[^\/]+|statuses\/[^\/]+|p\/[^\/]+\/\d+|videos\/watch\/[^\/]+|w\/[^\/]+|i\/web\/post\/\d+)(?:\/.*)?$/` -/
def genericFallbackPat : UrlPattern :=
  ⟨reCat [httpPre, .grp 1 (.plusCls notSlash), rlit "/",
    .grp 2 (reAlts [altSeg "@", altSeg "users/", altSeg "objects/", altSeg "notice/",
      altSeg "notes/", altSeg "statuses/",
      reCat [rlit "p/", .plusCls notSlash, rlit "/", .plusCls reDigit],
      altSeg "videos/watch/", altSeg "w/",
      reCat [rlit "i/web/post/", .plusCls reDigit]]),
    tailOpt], 2⟩

/-- `/\/(\d+)(?:\/.*)?$/` -/
def reDigitsEnd : RE := reCat [rlit "/", .grp 1 (.plusCls reDigit), tailOpt]

/-- `/\/(objects|notice|notes)\/([^\/\?]+)(?:\/.*)?$/` -/
def reObjSegEnd : RE :=
  reCat [rlit "/", .grp 1 (reAlts [rlit "objects", rlit "notice", rlit "notes"]),
    rlit "/", .grp 2 (.plusCls notSlashQ), tailOpt]

/-- `/\/p\/[^\/]+\/(\d+)(?:\/.*)?$/` -/
def rePixEnd : RE :=
  reCat [rlit "/p/", .plusCls notSlash, rlit "/", .grp 1 (.plusCls reDigit), tailOpt]

/-- `/\/videos\/watch\/([^\/\?]+)(?:\/.*)?$/` -/
def reVidEnd : RE :=
  reCat [rlit "/videos/watch/", .grp 1 (.plusCls notSlashQ), tailOpt]

/-- An end-anchored search: `reSearch` where the continuation demands the
rest be consumed (these secondary patterns all end in `(?:\/.*)?$`). -/
def reSearchAnchored (r : RE) (s : List Char) : Option Caps :=
  firstSome (fun i => matchRE r (s.drop i) []
      (fun rest caps => if rest.isEmpty then some caps else none))
    (List.range (s.length + 1))

/-- The generic-detection fallback branch of `parseFediverseUrl` (lines
46-81): secondary id-extraction keyed on which substring the captured path
segment contains. -/
def genericBranch (url : List Char) : Option ParsedUrl :=
  match reFullMatch genericFallbackPat.re url with
  | none => none
  | some caps =>
    let domain := capGet caps 1
    let path := capGet caps 2
    let id : List Char :=
      if containsSub "/@".data path || containsSub "/users/".data path then
        match reSearchAnchored reDigitsEnd url with
        | some c2 => capGet c2 1
        | none => path
      else if containsSub "/objects/".data path || containsSub "/notice/".data path
          || containsSub "/notes/".data path then
        match reSearchAnchored reObjSegEnd url with
        | some c2 => capGet c2 2
        | none => path
      else if containsSub "/p/".data path then
        match reSearchAnchored rePixEnd url with
        | some c2 => capGet c2 1
        | none => path
      else if containsSub "/videos/watch/".data path then
        match reSearchAnchored reVidEnd url with
        | some c2 => capGet c2 1
        | none => path
      else path
    some { platform := "generic", domain := domain.asString, id := id.asString
         , originalUrl := url.asString, username := none }

/-- `parseFediverseUrl(url)`: trim, scan the platform registry in order
(first match wins), otherwise try the generic fallback pattern. -/
def parseFediverseUrl (url : String) : Option ParsedUrl :=
  let normalized := trimChars url.data
  match scanPlatforms normalized platformEntries with
  | some (k, pat, caps) => some (extractParsed k pat caps normalized)
  | none => genericBranch normalized

/-- Modelled from the spec: the extraction rule as the spec words it —
"username (capture group 2 when the pattern has **more than 3 groups**)".
Identical to `extractParsed` except for that condition (the code tests
`match.length > 3`, i.e. at least 3 capture groups). -/
def extractParsedSpec (platformKey : String) (pat : UrlPattern) (caps : Caps)
    (url : List Char) : ParsedUrl :=
  { platform := platformKey
  , domain := capStr caps 1
  , id := capStr caps pat.groups
  , originalUrl := url.asString
  , username := if pat.groups > 3 then some (capStr caps 2) else none }

/-- Modelled from the spec: `parseFediverseUrl` with the spec's stricter
username condition, for comparison against the code's behaviour. -/
def parseFediverseUrlSpec (url : String) : Option ParsedUrl :=
  let normalized := trimChars url.data
  match scanPlatforms normalized platformEntries with
  | some (k, pat, caps) => some (extractParsedSpec k pat caps normalized)
  | none => genericBranch normalized

/-! ## Canonical post model (the `FediversePost` family, src/types/activitypub.ts) -/

inductive TagType where
  | hashtag
  | mention
deriving DecidableEq, Repr

structure FvEmoji where
  shortcode : String
  url : String
  staticUrl : Option String
deriving DecidableEq, Repr

structure FvAccount where
  id : String
  username : String
  displayName : String
  avatar : Option String
  url : String
  acct : String
  platform : String
  emojis : List FvEmoji
deriving DecidableEq, Repr

structure FvAttachment where
  type : String
  url : Option String
  previewUrl : Option String
  description : Option String
  width : Option Nat
  height : Option Nat
  blurhash : Option String
deriving DecidableEq, Repr

structure FvTag where
  name : String
  url : String
  type : TagType
deriving DecidableEq, Repr

structure FvPost where
  id : String
  content : String
  createdAt : String
  updatedAt : Option String
  account : FvAccount
  attachments : List FvAttachment
  repliesCount : Nat
  boostsCount : Nat
  favouritesCount : Nat
  sensitive : Bool
  spoilerText : String
  url : String
  platform : String
  inReplyTo : Option String
  language : Option String
  tags : List FvTag
deriving DecidableEq, Repr

/-! ## Raw Mastodon API shapes (the fields `convertMastodonToUniversal` reads) -/

structure MdEmoji where
  shortcode : String
  url : String
  static_url : Option String
deriving DecidableEq, Repr

structure MdTag where
  name : String
  url : String
deriving DecidableEq, Repr

structure MdAccount where
  id : String
  username : String
  display_name : String
  avatar : Option String
  url : String
  acct : String
  emojis : Option (List MdEmoji)
deriving DecidableEq, Repr

structure MdAttachment where
  type : String
  url : Option String
  preview_url : Option String
  preview_image_url : Option String
  description : Option String
  metaOrigWidth : Option Nat
  metaOrigHeight : Option Nat
  blurhash : Option String
deriving DecidableEq, Repr

structure MdStatus where
  id : String
  content : String
  created_at : String
  edited_at : Option String
  account : MdAccount
  emojis : Option (List MdEmoji)
  media_attachments : Option (List MdAttachment)
  replies_count : Nat
  reblogs_count : Nat
  favourites_count : Nat
  sensitive : Bool
  spoiler_text : String
  url : String
  in_reply_to_id : Option String
  language : Option String
  tags : Option (List MdTag)
deriving DecidableEq, Repr

/-! ## The Mastodon normalizer `convertMastodonToUniversal` -/

def mdEmojiToFv (e : MdEmoji) : FvEmoji :=
  { shortcode := e.shortcode, url := e.url, staticUrl := e.static_url }

/-- The emoji merge loop shared by both normalizers: start from the
account-level list and append each content-level emoji only when its
shortcode is not already present. -/
def mergeEmojis (acc content : List FvEmoji) : List FvEmoji :=
  content.foldl
    (fun all e => if all.any (fun a => a.shortcode == e.shortcode) then all else all ++ [e])
    acc

/-- `/\.(mp4|webm|mov|avi|mkv|flv|wmv)$/` on an (already lowercased) URL:
equivalent to ending in one of the listed extensions. -/
def hasVideoExt (s : String) : Bool :=
  [".mp4", ".webm", ".mov", ".avi", ".mkv", ".flv", ".wmv"].any (fun e => strEnds s e)

/-- `u.replace(/\.mp4$/i, '_thumb.jpeg')`: substitute a trailing
(case-insensitive) `.mp4`; a string without that suffix is returned
unchanged, exactly as `String.prototype.replace` does on no match. -/
def replaceMp4Thumb (u : String) : String :=
  if strEnds (lowerStr u) ".mp4" then
    (u.data.take (u.data.length - 4)).asString ++ "_thumb.jpeg"
  else u

def convertMdAttachment (att : MdAttachment) : FvAttachment :=
  let lowerUrl := lowerStr ((att.url).getD "")
  let normalizedType :=
    if (att.type == "document" || att.type == "unknown") && hasVideoExt lowerUrl then
      "video"
    else att.type
  let previewUrl0 := jsOrS att.preview_url att.preview_image_url
  let previewUrl :=
    if !(strTruthy previewUrl0) && (normalizedType == "video" || att.type == "document") then
      match att.url with
      | some u => if u ≠ "" then some (replaceMp4Thumb u) else previewUrl0
      | none => previewUrl0
    else previewUrl0
  { type := normalizedType
  , url := att.url
  , previewUrl := previewUrl
  , description := att.description
  , width := att.metaOrigWidth
  , height := att.metaOrigHeight
  , blurhash := att.blurhash }

/-- `convertMastodonToUniversal(mastodonData)` (activitypubParser.ts,
lines 158-261).  Note that `acct` is copied through unchanged and both
`platform` tags are the literal `'mastodon'`. -/
def convertMastodonToUniversal (m : MdStatus) : FvPost :=
  let accountEmojis := ((m.account.emojis).getD []).map mdEmojiToFv
  let contentEmojis := ((m.emojis).getD []).map mdEmojiToFv
  let allEmojis := mergeEmojis accountEmojis contentEmojis
  { id := m.id
  , content := m.content
  , createdAt := m.created_at
  , updatedAt := m.edited_at
  , account :=
    { id := m.account.id
    , username := m.account.username
    , displayName := m.account.display_name
    , avatar := m.account.avatar
    , url := m.account.url
    , acct := m.account.acct
    , platform := "mastodon"
    , emojis := allEmojis }
  , attachments := ((m.media_attachments).getD []).map convertMdAttachment
  , repliesCount := m.replies_count
  , boostsCount := m.reblogs_count
  , favouritesCount := m.favourites_count
  , sensitive := m.sensitive
  , spoilerText := m.spoiler_text
  , url := m.url
  , platform := "mastodon"
  , inReplyTo := m.in_reply_to_id
  , language := m.language
  , tags := ((m.tags).getD []).map
      (fun t => { name := t.name, url := t.url, type := TagType.hashtag }) }

/-! ## Raw ActivityPub shapes (the fields `convertActivityPubToUniversal` reads) -/

/-- A tag object: `Emoji`, `Hashtag` or `Mention` entries all flow through
this shape (`iconUrl` models `tag.icon?.url`). -/
structure APTag where
  type : String
  name : Option String
  href : Option String
  url : Option String
  shortcode : Option String
  iconUrl : Option String
deriving DecidableEq, Repr

/-- An actor object (embedded or fetched): the fields the normalizer reads.
`iconUrl`/`iconHref`/`imageUrl`/`imageHref` model `icon?.url`, `icon?.href`,
`image?.url`, `image?.href`. -/
structure APActor where
  id : Option String
  preferredUsername : Option String
  name : Option String
  iconUrl : Option String
  iconHref : Option String
  imageUrl : Option String
  imageHref : Option String
  url : Option String
  tag : Option (List APTag)
deriving DecidableEq, Repr

/-- `attributedTo`: either a bare actor URL string or an embedded actor. -/
inductive APAttributedTo where
  | str (s : String)
  | actor (a : APActor)
deriving DecidableEq, Repr

/-- One element of an attachment's `url` array. -/
structure APUrlItem where
  mediaType : Option String
  href : Option String
  url : Option String
deriving DecidableEq, Repr

/-- An attachment's `url` field: a string, an object (with optional
`href`), or an array of media descriptors. -/
inductive APAttUrl where
  | str (s : String)
  | objHref (href : Option String)
  | arr (items : List APUrlItem)
deriving DecidableEq, Repr

/-- An attachment object; `previewUrl`/`thumbUrl`/`imageUrl` model
`att.preview?.url`, `att.thumbnail?.url`, `att.image?.url`. -/
structure APAttach where
  type : String
  url : Option APAttUrl
  previewUrl : Option String
  thumbUrl : Option String
  imageUrl : Option String
  name : Option String
  width : Option Nat
  height : Option Nat
deriving DecidableEq, Repr

/-- A post-level `image` field: a string or an object with optional `url`. -/
inductive APImage where
  | str (s : String)
  | obj (url : Option String)
deriving DecidableEq, Repr

/-- The post object fields the ActivityPub normalizer reads.  `replies`
models `replies` being present (outer `Option`) with an optional
`totalItems` (inner `Option`). -/
structure APNote where
  id : String
  content : Option String
  summary : Option String
  published : Option String
  updated : Option String
  attributedTo : Option APAttributedTo
  tag : Option (List APTag)
  attachment : Option (List APAttach)
  image : Option APImage
  replies : Option (Option Nat)
  sensitive : Option Bool
  url : Option String
  inReplyTo : Option String
deriving DecidableEq, Repr

/-! ## The ActivityPub normalizer `convertActivityPubToUniversal` -/

/-- `s.replace(/:/g, '')` -/
def stripColons (s : String) : String := (s.data.filter (· ≠ ':')).asString

/-- Emoji tags → canonical emoji:
`{ shortcode: emoji.name?.replace(/:/g,'') || emoji.shortcode,
   url: emoji.icon?.url || emoji.url, staticUrl: emoji.icon?.url || emoji.url }`
(an undefined shortcode/url is modelled as `""`). -/
def apTagToEmoji (t : APTag) : FvEmoji :=
  { shortcode := (jsOrS (t.name.map stripColons) t.shortcode).getD ""
  , url := (jsOrS t.iconUrl t.url).getD ""
  , staticUrl := jsOrS t.iconUrl t.url }

def apEmojisOfTags (tags : Option (List APTag)) : List FvEmoji :=
  ((tags.getD []).filter (fun t => t.type == "Emoji")).map apTagToEmoji

/-- Hashtag/Mention tags → canonical tags (lines 487-491): prefix `#` when
a name is present, empty name otherwise, then keep only tags with both a
non-empty name and a non-empty URL. -/
def convertAPTags (tags : Option (List APTag)) : List FvTag :=
  (((tags.getD []).filter (fun t => t.type == "Hashtag" || t.type == "Mention")).map
    (fun t =>
      ({ name :=
          match t.name with
          | some n => if n = "" then "" else if strStarts n "#" then n else "#" ++ n
          | none => ""
       , url := (jsOrS t.href t.url).getD ""
       , type := if t.type == "Mention" then TagType.mention else TagType.hashtag } : FvTag))).filter
    (fun t => t.name ≠ "" && t.url ≠ "")

/-- Attachment conversion in the ActivityPub normalizer (lines 410-478).
An attachment URL that remains a non-string object in JS is modelled as
`none`. -/
def convertAPAttachment (note : APNote) (att : APAttach) : FvAttachment :=
  let attachmentType0 := lowerStr att.type
  -- resolve object/array url forms
  let resolved : Option String × Option String :=
    match att.url with
    | some (.str s) => (some s, none)
    | some (.objHref h) =>
      (match h with
       | some href => if href ≠ "" then (some href, none) else (none, none)
       | none => (none, none))
    | some (.arr items) =>
      let videoUrl := (items.find? (fun u => strStarts ((u.mediaType).getD "") "video/")).bind
        (fun u => u.href)
      let imageUrl := (items.find? (fun u => strStarts ((u.mediaType).getD "") "image/")).bind
        (fun u => u.href)
      let fallback := (items.head?).bind (fun u => u.href)
      (jsOrS (jsOrS videoUrl imageUrl) fallback, imageUrl)
    | none => (none, none)
  let attachmentUrl := resolved.1
  let previewUrl0 := resolved.2
  let attachmentType :=
    if (attachmentType0 == "document" || attachmentType0 == "unknown")
        && hasVideoExt (lowerStr (attachmentUrl.getD "")) then
      "video"
    else attachmentType0
  let previewUrl :=
    if attachmentType == "video" then
      let p1 := jsOrS (jsOrS (jsOrS previewUrl0 att.previewUrl) att.thumbUrl) att.imageUrl
      let p2 :=
        match att.url with
        | some (.arr items) =>
          match items.find? (fun u => strStarts ((u.mediaType).getD "") "image/") with
          | some item => jsOrS item.href item.url
          | none => p1
        | _ => p1
      let p3 :=
        if !(strTruthy p2) then
          match note.image with
          | some (.str s) => if s ≠ "" then some s else p2
          | some (.obj u) => if strTruthy u then u else p2
          | none => p2
        else p2
      if !(strTruthy p3) then
        match attachmentUrl with
        | some u => if u ≠ "" then some (replaceMp4Thumb u) else p3
        | none => p3
      else p3
    else previewUrl0
  { type := attachmentType
  , url := attachmentUrl
  , previewUrl := previewUrl
  , description := att.name
  , width := att.width
  , height := att.height
  , blurhash := none }

/-- The account produced for a bare `attributedTo` URL whose actor object
was fetched successfully (lines 304-330).  `.error` models the `TypeError`
of `new URL(...)` propagating to the conversion's catch. -/
def apAccountOfFetchedActor (s : String) (u : APActor) (platform : String) :
    Except Unit FvAccount :=
  match hostnameOf s with
  | none => .error ()
  | some domain =>
    let pu := u.preferredUsername
    let uname := if strTruthy pu then pu.getD "" else lastSeg s
    .ok
      { id := (u.id).getD ""
      , username := uname
      , displayName :=
          if strTruthy u.name then (u.name).getD ""
          else if strTruthy pu then pu.getD "" else lastSeg s
      , avatar := jsOrS (jsOrS (jsOrS u.iconUrl u.iconHref) u.imageUrl) u.imageHref
      , url := if strTruthy u.url then (u.url).getD "" else (u.id).getD ""
      , acct := uname ++ "@" ++ domain
      , platform := platform
      , emojis := apEmojisOfTags u.tag }

/-- The fallback account when the actor fetch fails (lines 331-345). -/
def apAccountOfActorUrl (s : String) (platform : String) : Except Unit FvAccount :=
  match hostnameOf s with
  | none => .error ()
  | some domain =>
    let username := lastSeg s
    .ok
      { id := s, username := username, displayName := username, avatar := none
      , url := s, acct := username ++ "@" ++ domain, platform := platform, emojis := [] }

/-- The account produced from an embedded actor object (lines 346-373):
`actorDomain = new URL(attributedTo.id || '').hostname || 'unknown'`. -/
def apAccountOfEmbeddedActor (a : APActor) (platform : String) :
    Except Unit FvAccount :=
  match hostnameOf (((jsOrS a.id (some ""))).getD "") with
  | none => .error ()
  | some h =>
    let actorDomain := if h = "" then "unknown" else h
    let pu := a.preferredUsername
    let acctName :=
      if strTruthy pu then pu.getD ""
      else
        let fromId := (a.id).map lastSeg
        if strTruthy fromId then fromId.getD "" else "unknown"
    .ok
      { id := (a.id).getD ""
      , username := pu.getD ""
      , displayName := if strTruthy a.name then (a.name).getD "" else pu.getD ""
      , avatar := jsOrS (jsOrS (jsOrS a.iconUrl a.iconHref) a.imageUrl) a.imageHref
      , url := if strTruthy a.url then (a.url).getD "" else (a.id).getD ""
      , acct := acctName ++ "@" ++ actorDomain
      , platform := platform
      , emojis := apEmojisOfTags a.tag }

/-- The fallback account when `attributedTo` is absent (lines 374-385):
note the empty `acct`. -/
def apFallbackAccount (platform : String) : FvAccount :=
  { id := "unknown", username := "unknown", displayName := "Unknown User"
  , avatar := none, url := "", acct := "", platform := platform, emojis := [] }

/-- The actor-resolution oracle: `fetchUserObject(actorUrl)` returns the
parsed actor object or `null` on any failure. -/
structure ActorNet where
  userObject : String → Option APActor

/-- The account branch of the ActivityPub normalizer (lines 297-385). -/
def apAccountOf (net : ActorNet) (ap : APNote) (platform : String) :
    Except Unit FvAccount :=
  match ap.attributedTo with
  | some (.str s) =>
    (match net.userObject s with
     | some u => apAccountOfFetchedActor s u platform
     | none => apAccountOfActorUrl s platform)
  | some (.actor a) => apAccountOfEmbeddedActor a platform
  | none => .ok (apFallbackAccount platform)

/-- `convertActivityPubToUniversal(activityPubData, platform)` (lines
289-516).  `nowIso` models `new Date().toISOString()`; the `Except` error
models the function throwing `'Failed to convert ActivityPub data to
universal format'`. -/
def convertActivityPubToUniversal (net : ActorNet) (nowIso : String)
    (ap : APNote) (platform : String) : Except Unit FvPost :=
  let content :=
    if strTruthy ap.content then (ap.content).getD ""
    else if strTruthy ap.summary then (ap.summary).getD "" else ""
  let createdAt := if strTruthy ap.published then (ap.published).getD "" else nowIso
  match apAccountOf net ap platform with
  | .error e => .error e
  | .ok account0 =>
  let contentEmojis := apEmojisOfTags ap.tag
  let account := { account0 with emojis := mergeEmojis account0.emojis contentEmojis }
  .ok
    { id := ap.id
    , content := content
    , createdAt := createdAt
    , updatedAt := ap.updated
    , account := account
    , attachments := ((ap.attachment).getD []).map (convertAPAttachment ap)
    , repliesCount := match ap.replies with | some t => t.getD 0 | none => 0
    , boostsCount := 0
    , favouritesCount := 0
    , sensitive := (ap.sensitive).getD false
    , spoilerText := (ap.summary).getD ""
    , url := if strTruthy ap.url then (ap.url).getD "" else ap.id
    , platform := platform
    , inReplyTo := ap.inReplyTo
    , language := none
    , tags := convertAPTags ap.tag }

/-! ## The LRU result cache (src/utils/apiCache.ts)

A JS `Map` iterates in insertion order, so it is modelled as an
association list with the oldest entry first; `Map.delete` removes the
entry with the given key and `Map.set` (on an absent key) appends at the
end. -/

structure CacheEntry (α : Type) where
  data : α
  timestamp : Nat
  expiresAt : Nat
deriving DecidableEq, Repr

structure LRUCache (α : Type) where
  entries : List (String × CacheEntry α)
  maxSize : Nat
  ttl : Nat
deriving DecidableEq, Repr

def mapDelete {α : Type} (k : String) (l : List (String × CacheEntry α)) :
    List (String × CacheEntry α) :=
  l.filter (fun p => p.1 ≠ k)

/-- `LRUCache.get(key)` at time `now`: a fresh hit is promoted to the
most-recently-used (last) position, an expired entry is deleted and
reported as a miss. -/
def LRUCache.get {α : Type} (c : LRUCache α) (k : String) (now : Nat) :
    Option α × LRUCache α :=
  match c.entries.find? (fun p => p.1 == k) with
  | none => (none, c)
  | some kv =>
    if now > kv.2.expiresAt then (none, { c with entries := mapDelete k c.entries })
    else (some kv.2.data, { c with entries := mapDelete k c.entries ++ [(k, kv.2)] })

/-- First half of `LRUCache.set`: `if (this.cache.has(key)) this.cache.delete(key)`. -/
def setStage1 {α : Type} (c : LRUCache α) (k : String) : List (String × CacheEntry α) :=
  if c.entries.any (fun p => p.1 == k) then mapDelete k c.entries else c.entries

/-- Second half: `if (this.cache.size >= this.maxSize) delete firstKey`
(no deletion when the map is empty, as `firstKey` is then `undefined`). -/
def setStage2 {α : Type} (maxSize : Nat) (l : List (String × CacheEntry α)) :
    List (String × CacheEntry α) :=
  if maxSize ≤ l.length then
    match l with
    | [] => l
    | (k0, _) :: _ => mapDelete k0 l
  else l

/-- `LRUCache.set(key, data)` at time `now`: delete an existing entry for
the key, evict the first (least-recently-used) entry when at capacity,
then append the new entry with expiry `now + ttl`. -/
def LRUCache.set {α : Type} (c : LRUCache α) (k : String) (v : α) (now : Nat) :
    LRUCache α :=
  { c with entries := setStage2 c.maxSize (setStage1 c k) ++ [(k, ⟨v, now, now + c.ttl⟩)] }

def LRUCache.keys {α : Type} (c : LRUCache α) : List String := c.entries.map (fun p => p.1)

/-! ## Fetch results and the error taxonomy (part of FediverseClient) -/

structure FetchPostResult where
  success : Bool
  data : Option FvPost
  error : Option String
  errorCode : Option String
  platform : Option String
  suggestion : Option String
deriving DecidableEq, Repr

def mkFailure (err code sugg : String) : FetchPostResult :=
  { success := false, data := none, error := some err, errorCode := some code
  , platform := none, suggestion := some sugg }

def respOk (status : Nat) : Bool := 200 ≤ status && status ≤ 299

/-- Response of a `makeApiRequest` GET (default JSON accept headers);
`body = none` models a body `response.json()` cannot parse. -/
structure MdResp where
  status : Nat
  body : Option MdStatus
deriving Repr

/-- An ActivityPub document as fetched by the generic resolver: its `type`,
its `object` field when it is a `Create` wrapper (a reference or an
embedded object), and the post-object fields themselves. -/
structure APDoc where
  typ : String
  objRef : Option String
  objEmb : Option APNote
  note : APNote
deriving DecidableEq, Repr

/-- Response of a fetch with ActivityPub `Accept` headers; `ctJson` is
whether the `content-type` contains `application/json`/`activity+json`. -/
structure APResp where
  status : Nat
  ctJson : Bool
  body : Option APDoc
deriving Repr

/-- The network oracle: each field gives the response of one kind of
outbound request the client makes.  The Pixelfed, Misskey, PeerTube, and
Ech0 fetchers are not the subject of any claim and are abstracted as
arbitrary environment behaviour (any function of the parsed URL). -/
structure Net where
  httpGetJson : String → MdResp
  apGet : String → APResp
  userObject : String → Option APActor
  pixelfed : ParsedUrl → FetchPostResult
  misskey : ParsedUrl → FetchPostResult
  peertube : ParsedUrl → FetchPostResult
  ech0 : ParsedUrl → FetchPostResult
  nowIso : String

/-! ## The generic ActivityPub object resolver `fetchActivityPubObject` -/

def apNotFoundResult : FetchPostResult :=
  mkFailure
    "Unable to find ActivityPub data at this URL. This might not be a valid Fediverse post URL, or the instance may not be properly configured for ActivityPub."
    "NOT_FOUND"
    "Please verify:\n1. The URL points to a specific post (not a user profile or main page)\n2. The platform supports ActivityPub federation\n3. The post is public (not private or deleted)\n4. For projects like Ech0, use their Fediverse instance URL (e.g., https://memo.vaaat.com) not their GitHub repository"

def apServerErrorResult (msg : String) : FetchPostResult :=
  mkFailure ("Failed to fetch ActivityPub data: " ++ msg) "SERVER_ERROR"
    "This instance may not support public ActivityPub access or the post may be private."

/-- The candidate-URL loop: first URL whose response is ok, has a JSON
content type, and parses (a `response.json()` throw continues the loop). -/
def firstAPBody (net : Net) : List String → Option APDoc
  | [] => none
  | u :: rest =>
    let resp := net.apGet u
    if respOk resp.status && resp.ctJson then
      match resp.body with
      | some d => some d
      | none => firstAPBody net rest
    else firstAPBody net rest

/-- The candidate URL shapes the generic resolver tries, in order. -/
def apCandidateUrls (domain objectId : String) : List String :=
  (if strStarts objectId "http" then [objectId] else []) ++
  [ "https://" ++ domain ++ "/objects/" ++ objectId
  , "https://" ++ domain ++ "/p/" ++ objectId
  , "https://" ++ domain ++ "/notes/" ++ objectId
  , "https://" ++ domain ++ "/statuses/" ++ objectId ]

/-- The `Create` dereference step (lines 1420-1437): when the fetched
document is a `Create` wrapper with an `object`, resolve a string
reference with one more request (a parse throw propagates as `.error`, a
non-2xx keeps the wrapper itself), or use an embedded object directly. -/
def apDerefNote (net : Net) (doc : APDoc) : Except Unit APNote :=
  if doc.typ == "Create" && (doc.objRef.isSome || doc.objEmb.isSome) then
    match doc.objRef with
    | some s =>
      let resp := net.apGet s
      if respOk resp.status then
        match resp.body with
        | some d2 => .ok d2.note
        | none => .error ()
      else .ok doc.note
    | none =>
      match doc.objEmb with
      | some n => .ok n
      | none => .ok doc.note
  else .ok doc.note

/-- `FediverseClient.fetchActivityPubObject(domain, objectId)` (lines
1363-1455): candidate URL shapes, `Create` dereference, conversion, and a
top-level `platform: 'generic'` on success.  (The error message of a
dereference `response.json()` throw is the runtime SyntaxError text; it is
modelled by a fixed stand-in.) -/
def fetchActivityPubObject (net : Net) (domain objectId : String) : FetchPostResult :=
  match firstAPBody net (apCandidateUrls domain objectId) with
  | none => apNotFoundResult
  | some doc =>
    match apDerefNote net doc with
    | .error _ => apServerErrorResult "Unexpected token"
    | .ok note =>
      match convertActivityPubToUniversal ⟨net.userObject⟩ net.nowIso note domain with
      | .error _ => apServerErrorResult "Failed to convert ActivityPub data to universal format"
      | .ok data =>
        { success := true, data := some data, error := none, errorCode := none
        , platform := some "generic", suggestion := none }

/-! ## The Mastodon and Pleroma fetchers -/

def mastodonStatusUrl (domain id : String) : String :=
  "https://" ++ domain ++ "/api/v1/statuses/" ++ id

def mdNotFoundResult : FetchPostResult :=
  mkFailure "Post not found or deleted" "NOT_FOUND"
    "Check that the post URL is correct and the post still exists"

def mdPrivateResult : FetchPostResult :=
  mkFailure "This post is private or requires authentication" "PRIVATE_POST"
    "Only public posts can be converted to images"

def mdRateLimitedResult : FetchPostResult :=
  mkFailure "Too many requests. Please wait before trying again" "RATE_LIMITED"
    "Wait a few moments and try again"

def mdParseErrorResult : FetchPostResult :=
  mkFailure "Failed to parse response from server" "PARSE_ERROR"
    "The server returned an invalid response format"

/-- `FediverseClient.fetchMastodonPost` (lines 267-333): one GET against
`/api/v1/statuses/` + id; 404/401/403/429 are mapped; any other non-2xx
(and any thrown error) falls through to the generic ActivityPub fetch;
an unparseable 2xx body is a PARSE_ERROR. -/
def fetchMastodonPost (net : Net) (parsed : ParsedUrl) : FetchPostResult :=
  let resp := net.httpGetJson (mastodonStatusUrl parsed.domain parsed.id)
  if resp.status == 404 then mdNotFoundResult
  else if resp.status == 401 || resp.status == 403 then mdPrivateResult
  else if resp.status == 429 then mdRateLimitedResult
  else if !(respOk resp.status) then fetchActivityPubObject net parsed.domain parsed.id
  else
    match resp.body with
    | none => mdParseErrorResult
    | some m =>
      { success := true, data := some (convertMastodonToUniversal m), error := none
      , errorCode := none, platform := some "mastodon", suggestion := none }

/-- `FediverseClient.fetchPleromaPost` (lines 338-365): the same GET, but
no status mapping at all — any non-2xx response or parse failure throws
and is caught by the catch that falls through to the generic ActivityPub
fetch.  On success only the top-level `platform` is rewritten to
`'pleroma'`. -/
def fetchPleromaPost (net : Net) (parsed : ParsedUrl) : FetchPostResult :=
  let resp := net.httpGetJson (mastodonStatusUrl parsed.domain parsed.id)
  if !(respOk resp.status) then fetchActivityPubObject net parsed.domain parsed.id
  else
    match resp.body with
    | none => fetchActivityPubObject net parsed.domain parsed.id
    | some m =>
      let d0 := convertMastodonToUniversal m
      { success := true, data := some { d0 with platform := "pleroma" }, error := none
      , errorCode := none, platform := some "pleroma", suggestion := none }

/-! ## The orchestrator `FediverseClient.fetchPost` -/

/-- The operations `fetchPost` performs, in execution order, for trace
statements about the sequencing of the pipeline. -/
inductive Step where
  | cacheLookup
  | validateUrl
  | denyCheck
  | urlMatch
  | dispatch (platform : String)
  | cacheWrite
deriving DecidableEq, Repr

abbrev PostCache := LRUCache FetchPostResult

/-- `new LRUCache<FetchPostResult>(100, 30)` (30 minutes in ms). -/
def postCacheInit : PostCache := { entries := [], maxSize := 100, ttl := 30 * 60 * 1000 }

/-- The deny-list `obviousNonFediversePatterns`: each regex is a literal
with escaped dots and no anchors, so `pattern.test(lowercasedUrl)` is
substring containment. -/
def obviousNonFediverse : List String :=
  ["github.com", "gitlab.com", "bitbucket.org", "stackoverflow.com", "reddit.com",
   "twitter.com", "x.com", "facebook.com", "instagram.com", "linkedin.com",
   "youtube.com", "youtu.be"]

def invalidEmptyResult : FetchPostResult :=
  mkFailure "Please enter a valid URL" "INVALID_URL"
    "Make sure you're pasting a complete URL (e.g., https://mastodon.social/@username/123456)"

def invalidFormatResult : FetchPostResult :=
  mkFailure "Invalid URL format" "INVALID_URL"
    "Please check the URL format and try again"

def denyListResult : FetchPostResult :=
  mkFailure "This URL is from a platform that does not support the ActivityPub protocol"
    "UNSUPPORTED_PLATFORM"
    "Please use a URL from a Fediverse platform like Mastodon, Pixelfed, PeerTube, Misskey, or any ActivityPub-compatible service. For the Ech0 project, you would need the URL of their actual Fediverse instance (like https://memo.vaaat.com), not their GitHub repository."

def noMatchResult : FetchPostResult :=
  mkFailure "Unsupported URL" "UNSUPPORTED_PLATFORM"
    "Use direct post link from supported Fediverse platform (Mastodon, Pixelfed, PeerTube, etc.)."

def noConfigResult (platform : String) : FetchPostResult :=
  mkFailure ("Unsupported platform: " ++ platform) "UNSUPPORTED_PLATFORM"
    "Please try using a URL from a supported platform such as Mastodon, Pixelfed, or PeerTube"

def defaultCaseResult (platform : String) : FetchPostResult :=
  mkFailure ("Unsupported platform: " ++ platform) "UNSUPPORTED_PLATFORM"
    "Try a URL from a supported platform like Mastodon, Pixelfed, or PeerTube"

/-- The platform dispatch switch of `fetchPost` (lines 155-201), with
the generic branch's PeerTube/Misskey pre-detection. -/
def dispatchFetch (net : Net) (parsed : ParsedUrl) : FetchPostResult :=
  match parsed.platform with
  | "mastodon" => fetchMastodonPost net parsed
  | "pleroma" => fetchPleromaPost net parsed
  | "pixelfed" => net.pixelfed parsed
  | "misskey" => net.misskey parsed
  | "peertube" => net.peertube parsed
  | "ech0" => net.ech0 parsed
  | "generic" =>
    if strContains parsed.originalUrl "/videos/watch/"
        || strContains parsed.originalUrl "/w/" then
      let r := net.peertube parsed
      if r.success then r else fetchActivityPubObject net parsed.domain parsed.id
    else if strContains parsed.originalUrl "/notes/" then
      let r := net.misskey parsed
      if r.success then r else fetchActivityPubObject net parsed.domain parsed.id
    else fetchActivityPubObject net parsed.domain parsed.id
  | other => defaultCaseResult other

/-- `FediverseClient.fetchPost(url)` (lines 72-262), threading the cache
state and recording the operations performed, in order.  The cache lookup
is the first statement of the method, before any validation. -/
def fetchPost (net : Net) (cache : PostCache) (now : Nat) (url : String) :
    FetchPostResult × PostCache × List Step :=
  let looked := cache.get url now
  match looked.1 with
  | some r => (r, looked.2, [Step.cacheLookup])
  | none =>
    let c1 := looked.2
    if url = "" then
      (invalidEmptyResult, c1, [Step.cacheLookup, Step.validateUrl])
    else if (hostnameOf url).isNone then
      (invalidFormatResult, c1, [Step.cacheLookup, Step.validateUrl])
    else if obviousNonFediverse.any (fun p => strContains (lowerStr url) p) then
      (denyListResult, c1, [Step.cacheLookup, Step.validateUrl, Step.denyCheck])
    else
      match parseFediverseUrl url with
      | none =>
        (noMatchResult, c1, [Step.cacheLookup, Step.validateUrl, Step.denyCheck, Step.urlMatch])
      | some parsed =>
        if !(platformKeys.contains parsed.platform) then
          (noConfigResult parsed.platform, c1,
            [Step.cacheLookup, Step.validateUrl, Step.denyCheck, Step.urlMatch])
        else
          let result := dispatchFetch net parsed
          let steps := [Step.cacheLookup, Step.validateUrl, Step.denyCheck, Step.urlMatch,
            Step.dispatch parsed.platform]
          if result.success then
            (result, c1.set url result now, steps ++ [Step.cacheWrite])
          else
            (result, c1, steps)

/-! ## Concrete fixtures used by the theorems below -/

def mdAccountBase : MdAccount :=
  { id := "1", username := "alice", display_name := "Alice", avatar := none
  , url := "https://mastodon.social/@alice", acct := "alice", emojis := none }

def mdStatusBase : MdStatus :=
  { id := "123456789", content := "hello", created_at := "2024-01-01T00:00:00.000Z"
  , edited_at := none, account := mdAccountBase, emojis := none, media_attachments := none
  , replies_count := 0, reblogs_count := 0, favourites_count := 0, sensitive := false
  , spoiler_text := "", url := "https://mastodon.social/@alice/123456789"
  , in_reply_to_id := none, language := none, tags := none }

def failResultFixture : FetchPostResult :=
  mkFailure "fixture failure" "SERVER_ERROR" "fixture"

/-- A network in which the Mastodon statuses endpoint answers 200 with a
valid body and everything else fails. -/
def netHappy : Net :=
  { httpGetJson := fun _ => ⟨200, some mdStatusBase⟩
  , apGet := fun _ => ⟨404, false, none⟩
  , userObject := fun _ => none
  , pixelfed := fun _ => failResultFixture
  , misskey := fun _ => failResultFixture
  , peertube := fun _ => failResultFixture
  , ech0 := fun _ => failResultFixture
  , nowIso := "2024-01-01T00:00:00.000Z" }

def urlMastodonEx : String := "https://mastodon.social/@alice/123456789"

/-! ## C3: the URL matcher's extraction rule -/

/-- The claim's example evaluated on the embedded matcher. -/
theorem parse_mastodon_example :
    parseFediverseUrl urlMastodonEx =
      some { platform := "mastodon", domain := "mastodon.social", id := "123456789"
           , originalUrl := urlMastodonEx, username := some "alice" } := by
  decide

/-- C3 (counterexample).  The claim's rule says the username is extracted
"only when the pattern has more than 3 groups", yet the first Mastodon
pattern has exactly 3 capture groups and the matcher does extract
`username = "alice"` from the claim's own sample URL (the code tests
`match.length > 3`, i.e. at least 3 groups).  `parseFediverseUrlSpec`,
which follows the claim's wording, disagrees with the code here. -/
theorem c3_counterexample :
    mastodonPat1.groups = 3
    ∧ ¬ (mastodonPat1.groups > 3)
    ∧ (parseFediverseUrl urlMastodonEx).map (fun p => p.username) = some (some "alice")
    ∧ (parseFediverseUrlSpec urlMastodonEx).map (fun p => p.username) = some none
    ∧ parseFediverseUrlSpec urlMastodonEx ≠ parseFediverseUrl urlMastodonEx := by
  refine ⟨rfl, by decide, by decide, by decide, by decide⟩

/-- Modelled from the spec (claim as amended): first matching pattern
wins, domain is capture group 1, id is the last capture group, and the
username is capture group 2 when the pattern has **at least** 3 capture
groups (the code's `match.length > 3`). -/
def extractParsedAmended (platformKey : String) (pat : UrlPattern) (caps : Caps)
    (url : List Char) : ParsedUrl :=
  { platform := platformKey
  , domain := capStr caps 1
  , id := capStr caps pat.groups
  , originalUrl := url.asString
  , username := if 3 ≤ pat.groups then some (capStr caps 2) else none }

/-- C3 (amended).  The matcher is exactly: first matching pattern of the
first matching platform wins, with domain from group 1, id from the last
group, and username from group 2 when the pattern has at least 3 capture
groups (not "more than 3"); the generic fallback applies only when no
registry pattern matches.  The claim's sample URL evaluates as the claim
expects, a 2-group pattern yields no username, and a URL matching several
platforms resolves to the earliest platform in registry order. -/
theorem c3_amended :
    (∀ url : String,
      parseFediverseUrl url =
        match scanPlatforms (trimChars url.data) platformEntries with
        | some (k, pat, caps) => some (extractParsedAmended k pat caps (trimChars url.data))
        | none => genericBranch (trimChars url.data))
    ∧ parseFediverseUrl urlMastodonEx =
        some { platform := "mastodon", domain := "mastodon.social", id := "123456789"
             , originalUrl := urlMastodonEx, username := some "alice" }
    ∧ parseFediverseUrl "https://peertube.tv/videos/watch/abc-123" =
        some { platform := "peertube", domain := "peertube.tv", id := "abc-123"
             , originalUrl := "https://peertube.tv/videos/watch/abc-123", username := none }
    ∧ parseFediverseUrl "https://ex.com/objects/abc123" =
        some { platform := "pleroma", domain := "ex.com", id := "abc123"
             , originalUrl := "https://ex.com/objects/abc123", username := none } := by
  refine ⟨?_, by decide, by decide, by decide⟩
  intro url
  simp only [parseFediverseUrl]
  cases h : scanPlatforms (trimChars url.data) platformEntries with
  | none => rfl
  | some t =>
    obtain ⟨k, pat, caps⟩ := t
    simp only [extractParsed, extractParsedAmended, gt_iff_lt, Nat.lt_succ_iff]

/-! ## C1: platform tags and `acct` backfill -/

def mdStatusEmptyAcct : MdStatus :=
  { mdStatusBase with account := { mdAccountBase with acct := "" } }

/-- C1 (counterexample).  Raw Mastodon account data with an empty `acct`
field and a valid profile URL: the normalized account's `acct` is the
empty string, not `username@domain` — the Mastodon normalizer copies
`acct` through without any backfill. -/
theorem c1_counterexample :
    mdStatusEmptyAcct.account.acct = ""
    ∧ hostnameOf mdStatusEmptyAcct.account.url = some "mastodon.social"
    ∧ (convertMastodonToUniversal mdStatusEmptyAcct).account.acct = ""
    ∧ (convertMastodonToUniversal mdStatusEmptyAcct).account.acct ≠
        mdStatusEmptyAcct.account.username ++ "@" ++ "mastodon.social" := by
  refine ⟨rfl, by decide, rfl, by decide⟩

/-- Projection of a conversion result to the normalized `acct`. -/
def okAcct (e : Except Unit FvPost) : Option String :=
  match e with
  | .ok d => some d.account.acct
  | .error _ => none

def apActorAlice : APActor :=
  { id := some "https://example.com/users/alice", preferredUsername := some "alice"
  , name := some "Alice", iconUrl := none, iconHref := none, imageUrl := none
  , imageHref := none, url := some "https://example.com/@alice", tag := none }

def apNetAlice : ActorNet := ⟨fun _ => some apActorAlice⟩

def apNoteBase : APNote :=
  { id := "https://example.com/objects/99", content := some "hi", summary := none
  , published := some "2024-01-01T00:00:00.000Z", updated := none
  , attributedTo := some (.str "https://example.com/users/alice")
  , tag := none, attachment := none, image := none, replies := none
  , sensitive := none, url := some "https://example.com/@alice/99", inReplyTo := none }

def apNoteNoAttr : APNote := { apNoteBase with attributedTo := none }

/-- The conversion result's `acct` is the `acct` of the account the
account branch produced (the subsequent record update only replaces the
emoji list). -/
theorem convertAP_okAcct_of_account (net : ActorNet) (nowIso : String) (ap : APNote)
    (platform : String) (a : FvAccount) (ha : apAccountOf net ap platform = .ok a) :
    okAcct (convertActivityPubToUniversal net nowIso ap platform) = some a.acct := by
  unfold convertActivityPubToUniversal
  rw [ha]
  rfl

/-- The account built for a bare `attributedTo` URL whose hostname parses:
`acct` is `preferredUsername@hostname` when the fetched actor carries a
(non-empty) `preferredUsername`, and `lastSegment(url)@hostname` when the
actor fetch fails or the name is missing. -/
theorem apAccountOf_str_acct (net : ActorNet) (ap : APNote) (platform s domain : String)
    (hat : ap.attributedTo = some (APAttributedTo.str s))
    (hh : hostnameOf s = some domain) :
    ∃ a, apAccountOf net ap platform = .ok a ∧
      a.acct = (match net.userObject s with
                | some u =>
                  if strTruthy u.preferredUsername then (u.preferredUsername).getD ""
                  else lastSeg s
                | none => lastSeg s) ++ "@" ++ domain := by
  unfold apAccountOf
  rw [hat]
  dsimp only
  cases hu : net.userObject s with
  | none =>
    unfold apAccountOfActorUrl
    rw [hh]
    exact ⟨_, rfl, rfl⟩
  | some u =>
    unfold apAccountOfFetchedActor
    rw [hh]
    exact ⟨_, rfl, rfl⟩

/-- The account built for an embedded `attributedTo` actor whose
`id || ''` hostname parses: `acct` is
`(preferredUsername | lastSegment(id) | 'unknown')@(hostname | 'unknown')`. -/
theorem apAccountOf_actor_acct (net : ActorNet) (ap : APNote) (platform : String)
    (a0 : APActor) (hst : String)
    (hat : ap.attributedTo = some (APAttributedTo.actor a0))
    (hh : hostnameOf ((jsOrS a0.id (some "")).getD "") = some hst) :
    ∃ a, apAccountOf net ap platform = .ok a ∧
      a.acct = (if strTruthy a0.preferredUsername then (a0.preferredUsername).getD ""
                else if strTruthy ((a0.id).map lastSeg) then (((a0.id).map lastSeg)).getD ""
                else "unknown")
               ++ "@" ++ (if hst = "" then "unknown" else hst) := by
  unfold apAccountOf
  rw [hat]
  dsimp only
  unfold apAccountOfEmbeddedActor
  rw [hh]
  exact ⟨_, rfl, rfl⟩

def actorBob : APActor :=
  { id := some "https://example.org/users/bob", preferredUsername := some "bob"
  , name := some "Bob", iconUrl := none, iconHref := none, imageUrl := none
  , imageHref := none, url := none, tag := none }

def apNoteEmbedded : APNote := { apNoteBase with attributedTo := some (.actor actorBob) }

/-- C1 (amended).  The Mastodon normalizer tags both the post and the
account with the literal `'mastodon'` and copies `acct` verbatim from the
raw data (no backfill).  The ActivityPub normalizer backfills `acct` from
the **actor**, not from the resolved request domain: for a bare
`attributedTo` URL, `acct = username@hostname(actorUrl)` (username being
the fetched actor's `preferredUsername` or the URL's last segment); for an
embedded actor, `acct = username@hostname(actor.id)` (with `'unknown'`
fallbacks); and when `attributedTo` is absent `acct` is the **empty**
string. -/
theorem c1_amended :
    (∀ m : MdStatus,
        (convertMastodonToUniversal m).platform = "mastodon"
        ∧ (convertMastodonToUniversal m).account.platform = "mastodon"
        ∧ (convertMastodonToUniversal m).account.acct = m.account.acct)
    ∧ (∀ (net : ActorNet) (nowIso : String) (ap : APNote) (platform : String),
        ap.attributedTo = none →
        okAcct (convertActivityPubToUniversal net nowIso ap platform) = some "")
    ∧ (∀ (net : ActorNet) (nowIso : String) (ap : APNote) (platform s domain : String),
        ap.attributedTo = some (APAttributedTo.str s) →
        hostnameOf s = some domain →
        okAcct (convertActivityPubToUniversal net nowIso ap platform) =
          some ((match net.userObject s with
                 | some u =>
                   if strTruthy u.preferredUsername then (u.preferredUsername).getD ""
                   else lastSeg s
                 | none => lastSeg s) ++ "@" ++ domain))
    ∧ (∀ (net : ActorNet) (nowIso : String) (ap : APNote) (platform : String)
        (a0 : APActor) (hst : String),
        ap.attributedTo = some (APAttributedTo.actor a0) →
        hostnameOf ((jsOrS a0.id (some "")).getD "") = some hst →
        okAcct (convertActivityPubToUniversal net nowIso ap platform) =
          some ((if strTruthy a0.preferredUsername then (a0.preferredUsername).getD ""
                 else if strTruthy ((a0.id).map lastSeg) then (((a0.id).map lastSeg)).getD ""
                 else "unknown")
                ++ "@" ++ (if hst = "" then "unknown" else hst)))
    ∧ okAcct (convertActivityPubToUniversal apNetAlice "t" apNoteBase "my.host") =
        some "alice@example.com" := by
  refine ⟨fun m => ⟨rfl, rfl, rfl⟩, ?_, ?_, ?_, by decide⟩
  · intro net nowIso ap platform h
    simp [convertActivityPubToUniversal, apAccountOf, h, apFallbackAccount, okAcct]
  · intro net nowIso ap platform s domain hat hh
    obtain ⟨a, ha, hacct⟩ := apAccountOf_str_acct net ap platform s domain hat hh
    rw [convertAP_okAcct_of_account net nowIso ap platform a ha, hacct]
  · intro net nowIso ap platform a0 hst hat hh
    obtain ⟨a, ha, hacct⟩ := apAccountOf_actor_acct net ap platform a0 hst hat hh
    rw [convertAP_okAcct_of_account net nowIso ap platform a ha, hacct]

/-- C1 (witness): the three ActivityPub conjuncts applied at concrete
inputs — absent actor, bare actor URL, embedded actor. -/
theorem c1_amended_witness :
    okAcct (convertActivityPubToUniversal apNetAlice "t" apNoteNoAttr "my.host") = some ""
    ∧ okAcct (convertActivityPubToUniversal apNetAlice "t" apNoteBase "my.host") =
        some "alice@example.com"
    ∧ okAcct (convertActivityPubToUniversal apNetAlice "t" apNoteEmbedded "my.host") =
        some "bob@example.org" := by
  refine ⟨c1_amended.2.1 apNetAlice "t" apNoteNoAttr "my.host" rfl, ?_, ?_⟩
  · have h := c1_amended.2.2.1 apNetAlice "t" apNoteBase "my.host"
      "https://example.com/users/alice" "example.com" rfl (by decide)
    rw [h]
    decide
  · have h := c1_amended.2.2.2.1 apNetAlice "t" apNoteEmbedded "my.host"
      actorBob "example.org" rfl (by decide)
    rw [h]
    decide

/-! ## C7: emoji merging -/

/-- The merge loop appends, after the account-level list, exactly those
content-level emojis whose shortcode is new, and never duplicates a
shortcode that is already present. -/
theorem mergeEmojis_cons (acc : List FvEmoji) (e : FvEmoji) (cs : List FvEmoji) :
    mergeEmojis acc (e :: cs) =
      mergeEmojis
        (if acc.any (fun a => a.shortcode == e.shortcode) then acc else acc ++ [e]) cs := rfl

theorem mergeEmojis_spec (content : List FvEmoji) :
    ∀ acc : List FvEmoji, ∃ rest,
      mergeEmojis acc content = acc ++ rest
      ∧ (∀ e ∈ rest, ∀ a ∈ acc, a.shortcode ≠ e.shortcode)
      ∧ ((acc.map (fun e => e.shortcode)).Nodup →
          ((acc ++ rest).map (fun e => e.shortcode)).Nodup) := by
  induction content with
  | nil =>
    intro acc
    exact ⟨[], by simp [mergeEmojis], by simp, by simp⟩
  | cons e cs ih =>
    intro acc
    by_cases h : acc.any (fun a => a.shortcode == e.shortcode) = true
    · have hstep : mergeEmojis acc (e :: cs) = mergeEmojis acc cs := by
        rw [mergeEmojis_cons, if_pos h]
      obtain ⟨rest, h1, h2, h3⟩ := ih acc
      exact ⟨rest, hstep ▸ h1, h2, h3⟩
    · have hstep : mergeEmojis acc (e :: cs) = mergeEmojis (acc ++ [e]) cs := by
        rw [mergeEmojis_cons, if_neg h]
      have hfresh : ∀ a ∈ acc, a.shortcode ≠ e.shortcode := by
        intro a ha hc
        exact h (List.any_eq_true.mpr ⟨a, ha, by simp [hc]⟩)
      obtain ⟨rest', h1, h2, h3⟩ := ih (acc ++ [e])
      refine ⟨e :: rest', ?_, ?_, ?_⟩
      · rw [hstep, h1]
        simp
      · intro x hx a ha
        rcases List.mem_cons.mp hx with rfl | hx2
        · exact hfresh a ha
        · exact h2 x hx2 a (by simp [ha])
      · intro hnd
        have hnd2 : ((acc ++ [e]).map (fun x => x.shortcode)).Nodup := by
          simp only [List.map_append, List.map_cons, List.map_nil]
          rw [List.nodup_append]
          refine ⟨hnd, List.nodup_singleton _, ?_⟩
          intro s hs hs2
          simp only [List.mem_singleton] at hs2
          obtain ⟨a, ha, rfl⟩ := List.mem_map.mp hs
          exact hfresh a ha hs2
        have hfin := h3 hnd2
        simpa [List.append_assoc] using hfin

/-- `convertMastodonToUniversal` builds the account emoji list with the
merge loop. -/
theorem convertMd_account_emojis (m : MdStatus) :
    (convertMastodonToUniversal m).account.emojis =
      mergeEmojis (((m.account.emojis).getD []).map mdEmojiToFv)
        (((m.emojis).getD []).map mdEmojiToFv) := rfl

def mdStatusDupAcctEmoji : MdStatus :=
  { mdStatusBase with
    account := { mdAccountBase with
      emojis := some [⟨"blob", "https://x/blob1.png", none⟩,
                      ⟨"blob", "https://x/blob2.png", none⟩] } }

/-- C7 (counterexample).  When the *account-level* emoji list itself
contains two entries with the same shortcode, both survive: the normalized
account emoji list is not deduplicated per shortcode. -/
theorem c7_counterexample :
    ((convertMastodonToUniversal mdStatusDupAcctEmoji).account.emojis.map
        (fun e => e.shortcode)) = ["blob", "blob"]
    ∧ ¬ ((convertMastodonToUniversal mdStatusDupAcctEmoji).account.emojis.map
        (fun e => e.shortcode)).Nodup := by
  refine ⟨by decide, by decide⟩

def mdStatusBlobFixture : MdStatus :=
  { mdStatusBase with
    content := "hi :blob:"
  , account := { mdAccountBase with emojis := some [⟨"blob", "https://x/blob.png", none⟩] }
  , emojis := some [⟨"blob", "https://x/blob-content.png", none⟩] }

/-- Projection of a conversion result to the normalized account emoji
list. -/
def okAccountEmojis (e : Except Unit FvPost) : Option (List FvEmoji) :=
  match e with
  | .ok d => some d.account.emojis
  | .error _ => none

/-- The ActivityPub normalizer's account emoji list is exactly the merge
loop applied to the account-branch list and the content-level (post tag)
emoji list. -/
theorem convertAP_okAccountEmojis (net : ActorNet) (nowIso : String) (ap : APNote)
    (platform : String) (a : FvAccount) (ha : apAccountOf net ap platform = .ok a) :
    okAccountEmojis (convertActivityPubToUniversal net nowIso ap platform) =
      some (mergeEmojis a.emojis (apEmojisOfTags ap.tag)) := by
  unfold convertActivityPubToUniversal
  rw [ha]
  rfl

/-- C7 (amended).  In **both** normalizers de-duplication applies only to
the content-level list: the account-level list is kept as a prefix
unchanged (so duplicates inside it survive), each appended content emoji
has a shortcode absent from the account-level list (so when a shortcode
occurs in both lists the account-level entry is the one kept), and the
merged list is duplicate-free whenever the account-level list is.  On the
spec's fixture (`blob` in both lists) exactly the account-level entry
remains. -/
theorem c7_amended :
    (∀ m : MdStatus, ∃ rest,
        (convertMastodonToUniversal m).account.emojis =
          ((m.account.emojis).getD []).map mdEmojiToFv ++ rest
        ∧ (∀ e ∈ rest, ∀ a ∈ ((m.account.emojis).getD []).map mdEmojiToFv,
            a.shortcode ≠ e.shortcode)
        ∧ (((((m.account.emojis).getD []).map mdEmojiToFv).map (fun e => e.shortcode)).Nodup →
            (((convertMastodonToUniversal m).account.emojis).map (fun e => e.shortcode)).Nodup))
    ∧ (∀ (net : ActorNet) (nowIso : String) (ap : APNote) (platform : String) (a : FvAccount),
        apAccountOf net ap platform = .ok a →
        ∃ rest,
          okAccountEmojis (convertActivityPubToUniversal net nowIso ap platform) =
            some (a.emojis ++ rest)
          ∧ (∀ e ∈ rest, ∀ x ∈ a.emojis, x.shortcode ≠ e.shortcode)
          ∧ ((a.emojis.map (fun e => e.shortcode)).Nodup →
              ((a.emojis ++ rest).map (fun e => e.shortcode)).Nodup))
    ∧ (convertMastodonToUniversal mdStatusBlobFixture).account.emojis =
        [⟨"blob", "https://x/blob.png", none⟩] := by
  refine ⟨?_, ?_, by decide⟩
  · intro m
    obtain ⟨rest, h1, h2, h3⟩ :=
      mergeEmojis_spec (((m.emojis).getD []).map mdEmojiToFv)
        (((m.account.emojis).getD []).map mdEmojiToFv)
    refine ⟨rest, ?_, h2, ?_⟩
    · rw [convertMd_account_emojis, h1]
    · intro hnd
      rw [convertMd_account_emojis, h1]
      exact h3 hnd
  · intro net nowIso ap platform a ha
    obtain ⟨rest, h1, h2, h3⟩ := mergeEmojis_spec (apEmojisOfTags ap.tag) a.emojis
    refine ⟨rest, ?_, h2, h3⟩
    rw [convertAP_okAccountEmojis net nowIso ap platform a ha, h1]

/-- An `Emoji` tag as the ActivityPub normalizer consumes it. -/
def apTagEmojiBlob : APTag :=
  { type := "Emoji", name := some ":blob:", href := none, url := some "https://x/blob.png"
  , shortcode := none, iconUrl := none }

def apNoteEmojiFixture : APNote := { apNoteNoAttr with tag := some [apTagEmojiBlob] }

def actorNetNone : ActorNet := ⟨fun _ => none⟩

/-- C7 (witness): both normalizers' conjuncts applied at concrete inputs,
their hypotheses discharged by evaluation. -/
theorem c7_amended_witness :
    (((((mdStatusBlobFixture.account.emojis).getD []).map mdEmojiToFv).map
        (fun e => e.shortcode)).Nodup)
    ∧ (((convertMastodonToUniversal mdStatusBlobFixture).account.emojis).map
        (fun e => e.shortcode)).Nodup
    ∧ (∃ rest,
        okAccountEmojis (convertActivityPubToUniversal actorNetNone "t" apNoteEmojiFixture "p") =
          some ((apFallbackAccount "p").emojis ++ rest)
        ∧ (∀ e ∈ rest, ∀ x ∈ (apFallbackAccount "p").emojis, x.shortcode ≠ e.shortcode)
        ∧ (((apFallbackAccount "p").emojis.map (fun e => e.shortcode)).Nodup →
            (((apFallbackAccount "p").emojis ++ rest).map (fun e => e.shortcode)).Nodup)) := by
  refine ⟨by decide, ?_, ?_⟩
  · obtain ⟨rest, _, _, h3⟩ := c7_amended.1 mdStatusBlobFixture
    exact h3 (by decide)
  · exact c7_amended.2.1 actorNetNone "t" apNoteEmojiFixture "p" (apFallbackAccount "p") rfl

/-! ## C8: tag normalization -/

def mdStatusTagCats : MdStatus :=
  { mdStatusBase with tags := some [⟨"cats", "https://mastodon.social/tags/cats"⟩] }

def apTagNamedNoUrl : APTag :=
  { type := "Hashtag", name := some "#x", href := none, url := none
  , shortcode := none, iconUrl := none }

/-- C8 (counterexample).  The Mastodon normalizer emits the raw tag name
`"cats"` without a leading `#`; and the ActivityPub normalizer drops a tag
that has a name but no URL — a tag is filtered whenever *either* the name
or the URL is missing, not only when both are. -/
theorem c8_counterexample :
    ((convertMastodonToUniversal mdStatusTagCats).tags.map (fun t => t.name)) = ["cats"]
    ∧ strStarts "cats" "#" = false
    ∧ strTruthy apTagNamedNoUrl.name = true
    ∧ convertAPTags (some [apTagNamedNoUrl]) = [] := by
  refine ⟨by decide, by decide, by decide, by decide⟩

theorem strStarts_hash_append (n : String) : strStarts ("#" ++ n) "#" = true := by
  have h : ("#" ++ n).data = '#' :: n.data := by
    rw [String.data_append]
    rfl
  simp [strStarts, h, List.isPrefixOf]

/-- C8 (amended).  Only the ActivityPub normalizer normalizes tags: every
tag it emits has a non-empty `#`-prefixed name and a non-empty URL (a tag
missing either is dropped).  The Mastodon normalizer copies tag names and
URLs through unchanged, with no `#`-prefixing and no filtering. -/
theorem c8_amended :
    (∀ m : MdStatus, (convertMastodonToUniversal m).tags =
        ((m.tags).getD []).map
          (fun t => { name := t.name, url := t.url, type := TagType.hashtag }))
    ∧ (∀ (tags : Option (List APTag)) (t : FvTag), t ∈ convertAPTags tags →
        t.name ≠ "" ∧ strStarts t.name "#" = true ∧ t.url ≠ "")
    ∧ (∀ (net : ActorNet) (nowIso : String) (ap : APNote) (platform : String) (d : FvPost),
        convertActivityPubToUniversal net nowIso ap platform = .ok d →
        d.tags = convertAPTags ap.tag) := by
  refine ⟨fun m => rfl, ?_, ?_⟩
  · intro tags t ht
    simp only [convertAPTags, List.mem_filter, List.mem_map] at ht
    obtain ⟨⟨t0, ht0, rfl⟩, hcond⟩ := ht
    simp only [Bool.and_eq_true, decide_eq_true_eq] at hcond
    refine ⟨hcond.1, ?_, hcond.2⟩
    rcases hn : t0.name with _ | n
    · exfalso
      apply hcond.1
      simp [hn]
    · simp only [hn]
      by_cases hne : n = ""
      · exfalso
        apply hcond.1
        simp [hn, hne]
      · simp only [if_neg hne]
        by_cases hhash : strStarts n "#" = true
        · simp [hhash]
        · simp only [Bool.not_eq_true] at hhash
          simp [hhash, strStarts_hash_append]
  · intro net nowIso ap platform d hd
    unfold convertActivityPubToUniversal at hd
    rcases ha : apAccountOf net ap platform with e | account0 <;> rw [ha] at hd
    · exact absurd hd (by simp)
    · simp only [Except.ok.injEq] at hd
      rw [← hd]

/-! ## C5: the LRU cache contract -/

theorem get_snd_maxSize {α : Type} (c : LRUCache α) (k : String) (now : Nat) :
    ((c.get k now).2).maxSize = c.maxSize := by
  unfold LRUCache.get
  split
  · rfl
  · split <;> rfl

theorem get_snd_length_le {α : Type} (c : LRUCache α) (k : String) (now : Nat) :
    ((c.get k now).2).entries.length ≤ c.entries.length := by
  unfold LRUCache.get
  split
  · exact le_refl _
  · next kv heq =>
    split
    · exact List.length_filter_le _ _
    · have hmem : kv ∈ c.entries := List.mem_of_find?_eq_some heq
      have hkey := List.find?_some heq
      simp only [beq_iff_eq] at hkey
      have hlt : (mapDelete k c.entries).length < c.entries.length := by
        apply List.length_filter_lt_length_iff_exists.mpr
        refine ⟨kv, hmem, ?_⟩
        simp [hkey]
      simp only [List.length_append, List.length_cons, List.length_nil]
      omega

theorem setStage1_length_le {α : Type} (c : LRUCache α) (k : String) :
    (setStage1 c k).length ≤ c.entries.length := by
  unfold setStage1
  split
  · exact List.length_filter_le _ _
  · exact le_refl _

theorem mapDelete_cons_self {α : Type} (k0 : String) (e0 : CacheEntry α)
    (t : List (String × CacheEntry α)) :
    mapDelete k0 ((k0, e0) :: t) = t.filter (fun p => p.1 ≠ k0) := by
  simp [mapDelete]

theorem set_maxSize {α : Type} (c : LRUCache α) (k : String) (v : α) (now : Nat) :
    (c.set k v now).maxSize = c.maxSize := rfl

theorem set_length_le {α : Type} (c : LRUCache α) (k : String) (v : α) (now : Nat)
    (h1 : c.entries.length ≤ c.maxSize) (hm : 1 ≤ c.maxSize) :
    (c.set k v now).entries.length ≤ c.maxSize := by
  unfold LRUCache.set
  have hs1 := setStage1_length_le c k
  by_cases hcap : c.maxSize ≤ (setStage1 c k).length
  · have hne : setStage1 c k ≠ [] := by
      intro h0
      rw [h0] at hcap
      simp only [List.length_nil] at hcap
      omega
    obtain ⟨p, t, hpt⟩ := List.exists_cons_of_ne_nil hne
    obtain ⟨k0, e0⟩ := p
    rw [hpt] at hcap
    have hred : setStage2 c.maxSize (setStage1 c k) = mapDelete k0 ((k0, e0) :: t) := by
      unfold setStage2
      rw [hpt, if_pos hcap]
    have hlen2 : (setStage2 c.maxSize (setStage1 c k)).length ≤ t.length := by
      rw [hred, mapDelete_cons_self]
      exact List.length_filter_le _ _
    have ht : t.length + 1 = (setStage1 c k).length := by rw [hpt]; simp
    simp only [List.length_append, List.length_cons, List.length_nil]
    omega
  · have h2 : setStage2 c.maxSize (setStage1 c k) = setStage1 c k := by
      unfold setStage2
      rw [if_neg hcap]
    rw [h2]
    simp only [List.length_append, List.length_cons, List.length_nil]
    omega

/-- The operations the result cache is subjected to. -/
inductive CacheOp where
  | get (k : String) (now : Nat)
  | set (k : String) (v : FetchPostResult) (now : Nat)

def runCacheOps (c : PostCache) : List CacheOp → PostCache
  | [] => c
  | CacheOp.get k now :: rest => runCacheOps ((LRUCache.get c k now).2) rest
  | CacheOp.set k v now :: rest => runCacheOps (LRUCache.set c k v now) rest

theorem runCacheOps_bound (ops : List CacheOp) :
    ∀ c : PostCache, c.entries.length ≤ c.maxSize → 1 ≤ c.maxSize →
      (runCacheOps c ops).entries.length ≤ (runCacheOps c ops).maxSize
      ∧ (runCacheOps c ops).maxSize = c.maxSize := by
  induction ops with
  | nil => exact fun c h1 _ => ⟨h1, rfl⟩
  | cons op rest ih =>
    intro c h1 h2
    cases op with
    | get k now =>
      have h1' : ((c.get k now).2).entries.length ≤ ((c.get k now).2).maxSize := by
        rw [get_snd_maxSize]
        exact le_trans (get_snd_length_le c k now) h1
      have h2' : 1 ≤ ((c.get k now).2).maxSize := by
        rw [get_snd_maxSize]; exact h2
      obtain ⟨ha, hb⟩ := ih _ h1' h2'
      constructor
      · show (runCacheOps ((c.get k now).2) rest).entries.length ≤
          (runCacheOps ((c.get k now).2) rest).maxSize
        exact ha
      · show (runCacheOps ((c.get k now).2) rest).maxSize = c.maxSize
        rw [hb, get_snd_maxSize]
    | set k v now =>
      have h1' : ((c.set k v now)).entries.length ≤ ((c.set k v now)).maxSize := by
        rw [set_maxSize]
        exact set_length_le c k v now h1 h2
      have h2' : 1 ≤ ((c.set k v now)).maxSize := by
        rw [set_maxSize]; exact h2
      obtain ⟨ha, hb⟩ := ih _ h1' h2'
      constructor
      · show (runCacheOps (c.set k v now) rest).entries.length ≤
          (runCacheOps (c.set k v now) rest).maxSize
        exact ha
      · show (runCacheOps (c.set k v now) rest).maxSize = c.maxSize
        rw [hb, set_maxSize]

theorem mem_of_getLast?_eq_some {α : Type} : ∀ {l : List α} {a : α},
    l.getLast? = some a → a ∈ l := by
  intro l
  induction l with
  | nil => intro a h; simp at h
  | cons x t ih =>
    intro a h
    cases t with
    | nil =>
      simp only [List.getLast?_singleton, Option.some.injEq] at h
      simp [h]
    | cons y ts =>
      rw [List.getLast?_cons_cons] at h
      exact List.mem_cons_of_mem x (ih h)

/-- C5.  The LRU contract: (1) `get` returns a value only from an entry
that is present and unexpired (`now ≤ expiresAt`), and on a hit moves that
entry to the most-recently-used (last) position; (2) `set` on a full cache
with all keys distinct and a fresh key evicts exactly the first
(least-recently-used) entry — every other entry, in particular the
most-recently-used one, survives; (3) consequently the result cache
(capacity 100) never holds more than 100 entries under any sequence of
operations. -/
theorem c5_lru_contract :
    (∀ (α : Type) (c : LRUCache α) (k : String) (now : Nat) (v : α),
        (c.get k now).1 = some v →
        ∃ kv, c.entries.find? (fun p => p.1 == k) = some kv
          ∧ v = kv.2.data ∧ now ≤ kv.2.expiresAt
          ∧ ((c.get k now).2).entries.getLast? = some (k, kv.2))
    ∧ (∀ (α : Type) (c : LRUCache α) (k : String) (v : α) (now : Nat),
        c.keys.Nodup → c.entries.length = c.maxSize → 2 ≤ c.maxSize →
        (∀ p ∈ c.entries, p.1 ≠ k) →
        (c.set k v now).entries = c.entries.tail ++ [(k, ⟨v, now, now + c.ttl⟩)]
        ∧ (∀ p, c.entries.getLast? = some p → p ∈ (c.set k v now).entries))
    ∧ (∀ ops : List CacheOp, (runCacheOps postCacheInit ops).entries.length ≤ 100) := by
  refine ⟨?_, ?_, ?_⟩
  · intro α c k now v hv
    unfold LRUCache.get at hv
    cases heq : c.entries.find? (fun p => p.1 == k) with
    | none =>
      rw [heq] at hv
      exact absurd hv (by simp)
    | some kv =>
      rw [heq] at hv
      dsimp only at hv
      by_cases hexp : now > kv.2.expiresAt
      · rw [if_pos hexp] at hv
        exact absurd hv (by simp)
      · rw [if_neg hexp] at hv
        dsimp only at hv
        simp only [Option.some.injEq] at hv
        refine ⟨kv, rfl, hv.symm, by omega, ?_⟩
        show ((c.get k now).2).entries.getLast? = some (k, kv.2)
        unfold LRUCache.get
        rw [heq]
        dsimp only
        rw [if_neg hexp]
        exact List.getLast?_concat _
  · intro α c k v now hnd hlen hcap hfresh
    have hany : (c.entries.any (fun p => p.1 == k)) = false := by
      rw [Bool.eq_false_iff]
      intro hc
      obtain ⟨p, hp, hpk⟩ := List.any_eq_true.mp hc
      exact hfresh p hp (by simpa using hpk)
    have hs1 : setStage1 c k = c.entries := by
      unfold setStage1
      rw [hany]
      simp
    have hne : c.entries ≠ [] := by
      intro h0
      rw [h0] at hlen
      simp only [List.length_nil] at hlen
      omega
    obtain ⟨p0, t, hpt⟩ := List.exists_cons_of_ne_nil hne
    have htne : t ≠ [] := by
      intro h0
      rw [hpt, h0] at hlen
      simp only [List.length_cons, List.length_nil] at hlen
      omega
    have hkeys : ∀ q ∈ t, q.1 ≠ p0.1 := by
      intro q hq
      have : c.keys = p0.1 :: t.map (fun p => p.1) := by
        unfold LRUCache.keys
        rw [hpt]
        rfl
      rw [this] at hnd
      have hnotin := (List.nodup_cons.mp hnd).1
      intro hqe
      exact hnotin (hqe ▸ List.mem_map_of_mem (fun p => p.1) hq)
    obtain ⟨k0, e0⟩ := p0
    have hs2 : setStage2 c.maxSize (setStage1 c k) = t := by
      have hred : setStage2 c.maxSize (setStage1 c k) = mapDelete k0 ((k0, e0) :: t) := by
        unfold setStage2
        rw [hs1, hpt, if_pos (show c.maxSize ≤ ((k0, e0) :: t).length by rw [← hpt]; omega)]
      rw [hred, mapDelete_cons_self]
      apply List.filter_eq_self.mpr
      intro q hq
      simpa using hkeys q hq
    have hmain : (c.set k v now).entries = c.entries.tail ++ [(k, ⟨v, now, now + c.ttl⟩)] := by
      show setStage2 c.maxSize (setStage1 c k) ++ _ = _
      rw [hs2, hpt]
      rfl
    refine ⟨hmain, ?_⟩
    intro p hp
    rw [hmain]
    apply List.mem_append_left
    obtain ⟨t0, ts, hts⟩ := List.exists_cons_of_ne_nil htne
    rw [hpt, hts] at hp
    rw [List.getLast?_cons_cons] at hp
    have hpmem : p ∈ t0 :: ts := mem_of_getLast?_eq_some hp
    rw [hpt, hts]
    simpa using hpmem
  · intro ops
    have h := runCacheOps_bound ops postCacheInit (by simp [postCacheInit]) (by simp [postCacheInit])
    have hms : (runCacheOps postCacheInit ops).maxSize = 100 := h.2
    omega

def cacheNat1 : LRUCache Nat := { entries := [("a", ⟨7, 0, 10⟩)], maxSize := 2, ttl := 10 }

def cacheNat2 : LRUCache Nat :=
  { entries := [("a", ⟨1, 0, 99⟩), ("b", ⟨2, 0, 99⟩)], maxSize := 2, ttl := 5 }

/-- C5 (witness): the contract applied at concrete caches. -/
theorem c5_lru_contract_witness :
    (∃ kv, cacheNat1.entries.find? (fun p => p.1 == "a") = some kv
        ∧ (7 : Nat) = kv.2.data ∧ 5 ≤ kv.2.expiresAt
        ∧ ((cacheNat1.get "a" 5).2).entries.getLast? = some ("a", kv.2))
    ∧ ((cacheNat2.set "c" 3 1).entries = cacheNat2.entries.tail ++ [("c", ⟨3, 1, 1 + 5⟩)]
        ∧ (∀ p, cacheNat2.entries.getLast? = some p → p ∈ (cacheNat2.set "c" 3 1).entries)) :=
  ⟨c5_lru_contract.1 Nat cacheNat1 "a" 5 7 (by decide),
   c5_lru_contract.2.1 Nat cacheNat2 "c" 3 1 (by decide) (by decide) (by decide) (by decide)⟩

/-! ## C4: Mastodon/Pleroma status mapping and fallback -/

def parsedPleromaEx : ParsedUrl :=
  { platform := "pleroma", domain := "pleroma.site", id := "abc123"
  , originalUrl := "https://pleroma.site/notice/abc123", username := none }

def parsedMdEx : ParsedUrl :=
  { platform := "mastodon", domain := "mastodon.social", id := "123456789"
  , originalUrl := urlMastodonEx, username := some "alice" }

/-- A network answering the statuses endpoint with a fixed status and
failing every ActivityPub request. -/
def netStatus (s : Nat) : Net := { netHappy with httpGetJson := fun _ => ⟨s, none⟩ }

set_option maxRecDepth 4000 in
/-- C4 (counterexample).  For a Pleroma-classified URL a 429 response is
**not** mapped to RATE_LIMITED: `fetchPleromaPost` maps no statuses, falls
through to the generic ActivityPub fetch, and (with that failing too)
surfaces the fallback's NOT_FOUND — while the Mastodon fetcher on the same
response would have produced RATE_LIMITED. -/
theorem c4_counterexample :
    fetchPleromaPost (netStatus 429) parsedPleromaEx = apNotFoundResult
    ∧ apNotFoundResult.errorCode = some "NOT_FOUND"
    ∧ (fetchPleromaPost (netStatus 429) parsedPleromaEx).errorCode ≠ some "RATE_LIMITED"
    ∧ fetchMastodonPost (netStatus 429) parsedPleromaEx = mdRateLimitedResult := by
  refine ⟨by decide, rfl, by decide, by decide⟩

/-- C4 (amended).  The **Mastodon** fetcher maps 404 → NOT_FOUND,
401/403 → PRIVATE_POST, 429 → RATE_LIMITED and falls through to the
generic ActivityPub object fetch on any other non-2xx.  The **Pleroma**
fetcher issues the same single GET but maps no statuses at all: every
non-2xx response (404, 401, 403 and 429 included) falls through to the
generic ActivityPub object fetch. -/
theorem c4_amended :
    (∀ (net : Net) (parsed : ParsedUrl),
        (net.httpGetJson (mastodonStatusUrl parsed.domain parsed.id)).status = 404 →
        fetchMastodonPost net parsed = mdNotFoundResult)
    ∧ (∀ (net : Net) (parsed : ParsedUrl),
        (net.httpGetJson (mastodonStatusUrl parsed.domain parsed.id)).status = 401
          ∨ (net.httpGetJson (mastodonStatusUrl parsed.domain parsed.id)).status = 403 →
        fetchMastodonPost net parsed = mdPrivateResult)
    ∧ (∀ (net : Net) (parsed : ParsedUrl),
        (net.httpGetJson (mastodonStatusUrl parsed.domain parsed.id)).status = 429 →
        fetchMastodonPost net parsed = mdRateLimitedResult)
    ∧ (∀ (net : Net) (parsed : ParsedUrl),
        (net.httpGetJson (mastodonStatusUrl parsed.domain parsed.id)).status ≠ 404 →
        (net.httpGetJson (mastodonStatusUrl parsed.domain parsed.id)).status ≠ 401 →
        (net.httpGetJson (mastodonStatusUrl parsed.domain parsed.id)).status ≠ 403 →
        (net.httpGetJson (mastodonStatusUrl parsed.domain parsed.id)).status ≠ 429 →
        respOk (net.httpGetJson (mastodonStatusUrl parsed.domain parsed.id)).status = false →
        fetchMastodonPost net parsed = fetchActivityPubObject net parsed.domain parsed.id)
    ∧ (∀ (net : Net) (parsed : ParsedUrl),
        respOk (net.httpGetJson (mastodonStatusUrl parsed.domain parsed.id)).status = false →
        fetchPleromaPost net parsed = fetchActivityPubObject net parsed.domain parsed.id) := by
  refine ⟨?_, ?_, ?_, ?_, ?_⟩
  · intro net parsed h
    simp [fetchMastodonPost, h]
  · intro net parsed h
    rcases h with h | h <;> simp [fetchMastodonPost, h]
  · intro net parsed h
    simp [fetchMastodonPost, h]
  · intro net parsed h404 h401 h403 h429 hok
    simp [fetchMastodonPost, beq_iff_eq, h404, h401, h403, h429, hok]
  · intro net parsed hok
    simp [fetchPleromaPost, hok]

/-- C4 (witness for the amended theorem's hypotheses). -/
theorem c4_amended_witness :
    fetchMastodonPost (netStatus 404) parsedMdEx = mdNotFoundResult
    ∧ fetchMastodonPost (netStatus 401) parsedMdEx = mdPrivateResult
    ∧ fetchMastodonPost (netStatus 403) parsedMdEx = mdPrivateResult
    ∧ fetchMastodonPost (netStatus 429) parsedMdEx = mdRateLimitedResult
    ∧ fetchMastodonPost (netStatus 500) parsedMdEx =
        fetchActivityPubObject (netStatus 500) "mastodon.social" "123456789"
    ∧ fetchPleromaPost (netStatus 500) parsedMdEx =
        fetchActivityPubObject (netStatus 500) "mastodon.social" "123456789" :=
  ⟨c4_amended.1 _ _ rfl,
   c4_amended.2.1 _ _ (Or.inl rfl),
   c4_amended.2.1 _ _ (Or.inr rfl),
   c4_amended.2.2.1 _ _ rfl,
   c4_amended.2.2.2.1 _ _ (by decide) (by decide) (by decide) (by decide) (by decide),
   c4_amended.2.2.2.2 _ _ (by decide)⟩

/-! ## C9: the generic resolver's platform tagging -/

theorem apAccountOf_platform (net : ActorNet) (ap : APNote) (platform : String)
    (a : FvAccount) (h : apAccountOf net ap platform = .ok a) :
    a.platform = platform := by
  unfold apAccountOf at h
  cases hat : ap.attributedTo with
  | none =>
    rw [hat] at h
    simp only [Except.ok.injEq] at h
    rw [← h]
    rfl
  | some at0 =>
    rw [hat] at h
    cases at0 with
    | str s =>
      dsimp only at h
      cases hu : net.userObject s with
      | none =>
        rw [hu] at h
        dsimp only at h
        unfold apAccountOfActorUrl at h
        cases hh : hostnameOf s with
        | none => rw [hh] at h; exact absurd h (by simp)
        | some dmn =>
          rw [hh] at h
          simp only [Except.ok.injEq] at h
          rw [← h]
      | some u =>
        rw [hu] at h
        dsimp only at h
        unfold apAccountOfFetchedActor at h
        cases hh : hostnameOf s with
        | none => rw [hh] at h; exact absurd h (by simp)
        | some dmn =>
          rw [hh] at h
          simp only [Except.ok.injEq] at h
          rw [← h]
    | actor a0 =>
      dsimp only at h
      unfold apAccountOfEmbeddedActor at h
      cases hh : hostnameOf (((jsOrS a0.id (some ""))).getD "") with
      | none => rw [hh] at h; exact absurd h (by simp)
      | some dmn =>
        rw [hh] at h
        dsimp only at h
        simp only [Except.ok.injEq] at h
        rw [← h]

theorem convertAP_ok_platform (net : ActorNet) (nowIso : String) (ap : APNote)
    (platform : String) (d : FvPost)
    (hd : convertActivityPubToUniversal net nowIso ap platform = .ok d) :
    d.platform = platform ∧ d.account.platform = platform := by
  unfold convertActivityPubToUniversal at hd
  cases ha : apAccountOf net ap platform with
  | error e => rw [ha] at hd; exact absurd hd (by simp)
  | ok account0 =>
    rw [ha] at hd
    simp only [Except.ok.injEq] at hd
    have hplat := apAccountOf_platform net ap platform account0 ha
    constructor
    · rw [← hd]
    · rw [← hd]
      exact hplat

/-- C9.  Whenever the generic ActivityPub resolver succeeds, the result's
top-level `platform` is the literal `'generic'`, while the canonical
post's `data.platform` and `data.account.platform` are the request domain
string passed to the normalizer, not `'generic'`. -/
theorem c9_generic_platform :
    ∀ (net : Net) (domain objectId : String),
      (fetchActivityPubObject net domain objectId).success = true →
      (fetchActivityPubObject net domain objectId).platform = some "generic"
      ∧ ((fetchActivityPubObject net domain objectId).data.map
          (fun d => (d.platform, d.account.platform))) = some (domain, domain) := by
  intro net domain objectId hs
  unfold fetchActivityPubObject at hs ⊢
  cases hb : firstAPBody net (apCandidateUrls domain objectId) with
  | none =>
    simp only [hb] at hs
    exact absurd hs (by simp [apNotFoundResult, mkFailure])
  | some doc =>
    simp only [hb] at hs ⊢
    cases hdr : apDerefNote net doc with
    | error e =>
      simp only [hdr] at hs
      exact absurd hs (by simp [apServerErrorResult, mkFailure])
    | ok note =>
      simp only [hdr] at hs ⊢
      cases hc : convertActivityPubToUniversal ⟨net.userObject⟩ net.nowIso note domain with
      | error e =>
        simp only [hc] at hs
        exact absurd hs (by simp [apServerErrorResult, mkFailure])
      | ok data =>
        simp only [hc]
        obtain ⟨h1, h2⟩ := convertAP_ok_platform _ _ _ _ _ hc
        exact ⟨by simp, by simp [h1, h2]⟩

def apNoteSimple : APNote :=
  { id := "https://ex.com/objects/1", content := some "hello", summary := none
  , published := some "2024-01-01T00:00:00.000Z", updated := none
  , attributedTo := none, tag := none, attachment := none, image := none
  , replies := none, sensitive := none, url := none, inReplyTo := none }

def apDocSimple : APDoc :=
  { typ := "Note", objRef := none, objEmb := none, note := apNoteSimple }

/-- A network whose ActivityPub endpoint answers with a plain Note. -/
def netAPNote : Net :=
  { netHappy with apGet := fun _ => ⟨200, true, some apDocSimple⟩ }

/-- C9 (witness): the theorem applied at a concrete successful resolution. -/
theorem c9_generic_platform_witness :
    (fetchActivityPubObject netAPNote "ex.com" "1").platform = some "generic"
    ∧ ((fetchActivityPubObject netAPNote "ex.com" "1").data.map
        (fun d => (d.platform, d.account.platform))) = some ("ex.com", "ex.com") :=
  c9_generic_platform netAPNote "ex.com" "1" (by decide)

def apTagGood : APTag :=
  { type := "Hashtag", name := some "cats", href := some "https://ex.com/tags/cats"
  , url := none, shortcode := none, iconUrl := none }

/-- C8 (witness for the amended theorem's hypotheses). -/
theorem c8_amended_witness :
    ({ name := "#cats", url := "https://ex.com/tags/cats", type := TagType.hashtag } : FvTag).name ≠ ""
    ∧ strStarts ({ name := "#cats", url := "https://ex.com/tags/cats", type := TagType.hashtag } : FvTag).name "#" = true
    ∧ ({ name := "#cats", url := "https://ex.com/tags/cats", type := TagType.hashtag } : FvTag).url ≠ "" :=
  c8_amended.2.1 (some [apTagGood])
    { name := "#cats", url := "https://ex.com/tags/cats", type := TagType.hashtag }
    (by decide)

/-! ## C2: the orchestrator's step order -/

/-- The order in which `fetchPost` actually performs its operations. -/
def orderedSteps (p : String) : List Step :=
  [Step.cacheLookup, Step.validateUrl, Step.denyCheck, Step.urlMatch,
   Step.dispatch p, Step.cacheWrite]

set_option maxRecDepth 4000 in
/-- C2 (counterexample).  On a concrete successful run the recorded
operation order starts with the cache lookup, not with URL validation:
`fetchPost` consults the cache before validating anything, so the claimed
order (validation → deny-list → cache lookup → ...) is wrong. -/
theorem c2_counterexample :
    (fetchPost netHappy postCacheInit 0 urlMastodonEx).2.2 =
      [Step.cacheLookup, Step.validateUrl, Step.denyCheck, Step.urlMatch,
       Step.dispatch "mastodon", Step.cacheWrite]
    ∧ ((fetchPost netHappy postCacheInit 0 urlMastodonEx).2.2).head? ≠ some Step.validateUrl := by
  refine ⟨by decide, by decide⟩

set_option maxRecDepth 4000 in
/-- C2 (amended).  `fetchPost` performs its steps in the order: cache
lookup first (returning immediately on a hit), then URL-syntax
validation, then the deny-list check, then URL matching, then dispatch,
then the cache write on success: every run's recorded trace is a prefix
of that sequence, and a successful uncached run performs all six steps. -/
theorem c2_amended :
    (∀ (net : Net) (cache : PostCache) (now : Nat) (url : String),
        ∃ p n, (fetchPost net cache now url).2.2 = (orderedSteps p).take n)
    ∧ (∀ (net : Net) (cache : PostCache) (now : Nat) (url : String) (v : FetchPostResult),
        (cache.get url now).1 = some v →
        fetchPost net cache now url = (v, (cache.get url now).2, [Step.cacheLookup]))
    ∧ (fetchPost netHappy postCacheInit 0 urlMastodonEx).2.2 = orderedSteps "mastodon" := by
  refine ⟨?_, ?_, by decide⟩
  · intro net cache now url
    simp only [fetchPost]
    cases h : (cache.get url now).1 with
    | some r => exact ⟨"", 1, rfl⟩
    | none =>
      dsimp only
      split
      · exact ⟨"", 2, rfl⟩
      · split
        · exact ⟨"", 2, rfl⟩
        · split
          · exact ⟨"", 3, rfl⟩
          · split
            · exact ⟨"", 4, rfl⟩
            · next parsed _ =>
              split
              · exact ⟨"", 4, rfl⟩
              · split
                · exact ⟨parsed.platform, 6, rfl⟩
                · exact ⟨parsed.platform, 5, rfl⟩
  · intro net cache now url v hv
    simp only [fetchPost, hv]

def cachedOkResult : FetchPostResult :=
  { success := true, data := none, error := none, errorCode := none
  , platform := some "mastodon", suggestion := none }

def cacheWithHit : PostCache :=
  { entries := [(urlMastodonEx, ⟨cachedOkResult, 0, 100⟩)], maxSize := 100, ttl := 30 * 60 * 1000 }

/-- C2 (witness for the amended theorem's cache-hit hypothesis). -/
theorem c2_amended_witness :
    fetchPost netHappy cacheWithHit 5 urlMastodonEx =
      (cachedOkResult, (cacheWithHit.get urlMastodonEx 5).2, [Step.cacheLookup]) :=
  c2_amended.2.1 netHappy cacheWithHit 5 urlMastodonEx cachedOkResult (by decide)

/-! ## C6: only successes are cached -/

theorem get_of_find?_none {α : Type} (c : LRUCache α) (k : String) (now : Nat)
    (h : c.entries.find? (fun p => p.1 == k) = none) :
    (c.get k now).1 = none := by
  unfold LRUCache.get
  rw [h]

theorem get_miss_state {α : Type} (c : LRUCache α) (k : String) (now : Nat)
    (h : (c.get k now).1 = none) :
    ((c.get k now).2).entries.find? (fun p => p.1 == k) = none := by
  unfold LRUCache.get at h ⊢
  cases heq : c.entries.find? (fun p => p.1 == k) with
  | none =>
    dsimp only
    exact heq
  | some kv =>
    dsimp only
    simp only [heq] at h
    by_cases hexp : now > kv.2.expiresAt
    · rw [if_pos hexp]
      dsimp only
      apply List.find?_eq_none.mpr
      intro x hx
      have hpred := List.of_mem_filter hx
      simp only [decide_eq_true_eq] at hpred
      simp [hpred]
    · rw [if_neg hexp] at h
      exact absurd h (by simp)

/-- After a miss, the same key still misses at any later time. -/
theorem get_miss_persists {α : Type} (c : LRUCache α) (k : String) (now : Nat)
    (h : (c.get k now).1 = none) (now2 : Nat) :
    (((c.get k now).2).get k now2).1 = none :=
  get_of_find?_none _ _ _ (get_miss_state c k now h)

set_option maxRecDepth 4000 in
/-- C6.  On a cache miss, `fetchPost` writes its result to the post cache
iff the result is a success: a successful run leaves the post-lookup cache
state extended by exactly that result, a failed run leaves it unchanged
and records no cache-write step, and afterwards the same URL still misses
(so the next call fetches afresh instead of returning a stored failure). -/
theorem c6_only_success_cached :
    ∀ (net : Net) (c : PostCache) (now : Nat) (url : String),
      (c.get url now).1 = none →
      ((fetchPost net c now url).1.success = true →
          (fetchPost net c now url).2.1 =
            ((c.get url now).2).set url (fetchPost net c now url).1 now
          ∧ Step.cacheWrite ∈ (fetchPost net c now url).2.2)
      ∧ ((fetchPost net c now url).1.success = false →
          (fetchPost net c now url).2.1 = (c.get url now).2
          ∧ Step.cacheWrite ∉ (fetchPost net c now url).2.2
          ∧ ∀ now2, (((fetchPost net c now url).2.1).get url now2).1 = none) := by
  intro net c now url hmiss
  simp only [fetchPost, hmiss]
  split
  · refine ⟨fun hs => absurd hs (by simp [invalidEmptyResult, mkFailure]), fun _ => ?_⟩
    exact ⟨rfl, by simp, fun now2 => get_miss_persists c url now hmiss now2⟩
  · split
    · refine ⟨fun hs => absurd hs (by simp [invalidFormatResult, mkFailure]), fun _ => ?_⟩
      exact ⟨rfl, by simp, fun now2 => get_miss_persists c url now hmiss now2⟩
    · split
      · refine ⟨fun hs => absurd hs (by simp [denyListResult, mkFailure]), fun _ => ?_⟩
        exact ⟨rfl, by simp, fun now2 => get_miss_persists c url now hmiss now2⟩
      · split
        · refine ⟨fun hs => absurd hs (by simp [noMatchResult, mkFailure]), fun _ => ?_⟩
          exact ⟨rfl, by simp, fun now2 => get_miss_persists c url now hmiss now2⟩
        · next parsed _ =>
          split
          · refine ⟨fun hs => absurd hs (by simp [noConfigResult, mkFailure]), fun _ => ?_⟩
            exact ⟨rfl, by simp, fun now2 => get_miss_persists c url now hmiss now2⟩
          · split
            · next hres =>
              refine ⟨fun _ => ⟨rfl, by simp⟩, fun hf => ?_⟩
              dsimp only at hf
              rw [hres] at hf
              exact Bool.noConfusion hf
            · next hres =>
              refine ⟨fun hs => absurd hs (by simpa using hres), fun _ => ?_⟩
              exact ⟨rfl, by simp, fun now2 => get_miss_persists c url now hmiss now2⟩

def urlUnmatched : String := "https://example.com/totally/unrelated/path"

set_option maxRecDepth 4000 in
/-- C6 (witness): a successful run writes its result, a failed run leaves
the cache unchanged and the URL still misses afterwards. -/
theorem c6_only_success_cached_witness :
    ((fetchPost netHappy postCacheInit 0 urlMastodonEx).2.1 =
        ((postCacheInit.get urlMastodonEx 0).2).set urlMastodonEx
          (fetchPost netHappy postCacheInit 0 urlMastodonEx).1 0
      ∧ Step.cacheWrite ∈ (fetchPost netHappy postCacheInit 0 urlMastodonEx).2.2)
    ∧ ((fetchPost netHappy postCacheInit 0 urlUnmatched).2.1 =
          (postCacheInit.get urlUnmatched 0).2
      ∧ Step.cacheWrite ∉ (fetchPost netHappy postCacheInit 0 urlUnmatched).2.2
      ∧ (((fetchPost netHappy postCacheInit 0 urlUnmatched).2.1).get urlUnmatched 7).1 = none) :=
  ⟨(c6_only_success_cached netHappy postCacheInit 0 urlMastodonEx (by decide)).1 (by decide),
   ⟨((c6_only_success_cached netHappy postCacheInit 0 urlUnmatched (by decide)).2 (by decide)).1,
    ((c6_only_success_cached netHappy postCacheInit 0 urlUnmatched (by decide)).2 (by decide)).2.1,
    ((c6_only_success_cached netHappy postCacheInit 0 urlUnmatched (by decide)).2 (by decide)).2.2 7⟩⟩

/-! ## C10: the deny-list matches substrings of the whole URL -/

def urlMatrix : String := "https://matrix.com/notes/abc123"

set_option maxRecDepth 4000 in
/-- C10.  `https://matrix.com/notes/abc123` is a well-formed URL whose
hostname `matrix.com` is not on the deny list, yet the text of the URL
contains the deny-listed name `x.com`; since the deny-list patterns are
unanchored substring regexes tested against the whole lowercased URL,
`fetchPost` fails fast with UNSUPPORTED_PLATFORM for **any** network
behaviour, without dispatching to any platform fetcher. -/
theorem c10_denylist_substring :
    hostnameOf urlMatrix = some "matrix.com"
    ∧ obviousNonFediverse.contains "matrix.com" = false
    ∧ strContains (lowerStr urlMatrix) "x.com" = true
    ∧ (∀ net : Net, fetchPost net postCacheInit 0 urlMatrix =
        (denyListResult, postCacheInit, [Step.cacheLookup, Step.validateUrl, Step.denyCheck]))
    ∧ denyListResult.success = false
    ∧ denyListResult.errorCode = some "UNSUPPORTED_PLATFORM"
    ∧ (∀ (net : Net) (p : String),
        Step.dispatch p ∉ (fetchPost net postCacheInit 0 urlMatrix).2.2) := by
  refine ⟨by decide, by decide, by decide, fun net => rfl, rfl, rfl, ?_⟩
  intro net p hmem
  rw [show (fetchPost net postCacheInit 0 urlMatrix).2.2 =
      [Step.cacheLookup, Step.validateUrl, Step.denyCheck] from rfl] at hmem
  simp at hmem

end Tootpic
